import Mathlib

/-!
Verification of the core of the `cube` program (src/cube/main.cpp).

The program models an N×N×N combination puzzle as a flat vector of N³
pieces.  This file gives a shallow embedding of the piece model, the
coordinate mapper `planeToCube`, the solved-state initializer
`default_cube`, the validator, the rotation engine `cube::rotate`, the
move dispatcher (`performMove` / `computeMove`) and the scramble
generator `random_moves`, and proves the testable properties stated in
the specification about them.

Machine integers (`size_t`, `int`) are modelled by `Nat` / `Int`; all
quantities handled by the program stay far below 2^64 for any puzzle
size the program can actually allocate, so no wrap-around is modelled.
-/

set_option maxHeartbeats 1000000

-- Axes: X -> Right, Y -> Up, Z -> Forward (comment from the source).
inductive Axis : Type where
  | X
  | Y
  | Z
deriving DecidableEq

inductive Color : Type where
  | White
  | Orange
  | Green
  | Red
  | Blue
  | Yellow
  | None
deriving DecidableEq

inductive Face : Type where
  | Top
  | Left
  | Front
  | Right
  | Back
  | Bottom
deriving DecidableEq

structure Layer where
  axis : Axis
  index : Nat
deriving DecidableEq

def layer_left (_cubeSize : Nat) : Layer := ⟨Axis.X, 0⟩

def layer_middle (cubeSize : Nat) : Layer := ⟨Axis.X, cubeSize / 2⟩

def layer_right (cubeSize : Nat) : Layer := ⟨Axis.X, cubeSize - 1⟩

def layer_bottom (_cubeSize : Nat) : Layer := ⟨Axis.Y, 0⟩

def layer_equator (cubeSize : Nat) : Layer := ⟨Axis.Y, cubeSize / 2⟩

def layer_top (cubeSize : Nat) : Layer := ⟨Axis.Y, cubeSize - 1⟩

def layer_front (_cubeSize : Nat) : Layer := ⟨Axis.Z, 0⟩

def layer_slice (cubeSize : Nat) : Layer := ⟨Axis.Z, cubeSize / 2⟩

def layer_back (cubeSize : Nat) : Layer := ⟨Axis.Z, cubeSize - 1⟩

def layer (face : Face) (cubeSize : Nat) : Layer :=
  match face with
  | Face.Top => layer_top cubeSize
  | Face.Left => layer_left cubeSize
  | Face.Front => layer_front cubeSize
  | Face.Right => layer_right cubeSize
  | Face.Back => layer_back cubeSize
  | Face.Bottom => layer_bottom cubeSize

def default_color (f : Face) : Color :=
  match f with
  | Face.Top => Color.White
  | Face.Left => Color.Orange
  | Face.Front => Color.Green
  | Face.Right => Color.Red
  | Face.Back => Color.Blue
  | Face.Bottom => Color.Yellow

/-- `std::array<Color, 6>` indexed by `Face`, one named slot per face. -/
@[ext]
structure Piece where
  top : Color
  left : Color
  front : Color
  right : Color
  back : Color
  bottom : Color
deriving DecidableEq

/-- Read the slot `p[static_cast<size_t>(f)]`. -/
def Piece.get (p : Piece) (f : Face) : Color :=
  match f with
  | Face.Top => p.top
  | Face.Left => p.left
  | Face.Front => p.front
  | Face.Right => p.right
  | Face.Back => p.back
  | Face.Bottom => p.bottom

/-- Write the slot `p[static_cast<size_t>(f)]`. -/
def Piece.set (p : Piece) (f : Face) (c : Color) : Piece :=
  match f with
  | Face.Top => { p with top := c }
  | Face.Left => { p with left := c }
  | Face.Front => { p with front := c }
  | Face.Right => { p with right := c }
  | Face.Back => { p with back := c }
  | Face.Bottom => { p with bottom := c }

namespace piece

def default_piece : Piece :=
  ⟨Color.None, Color.None, Color.None, Color.None, Color.None, Color.None⟩

def default_face (f : Face) : Piece :=
  Piece.set default_piece f (default_color f)

def add_default_face (p : Piece) (f : Face) : Piece :=
  Piece.set p f (default_color f)

def has (p : Piece) (f : Face) : Bool :=
  decide (Piece.get p f ≠ Color.None)

/-- One `std::swap(p[f], prev)` step inside `piece::shift`; the state is
the pair (piece, prev). -/
def shiftSwap (s : Piece × Color) (f : Face) : Piece × Color :=
  (Piece.set s.1 f s.2, Piece.get s.1 f)

/-- Body of `piece::shift`, with the initial value of the local variable
`prev` (left uninitialized in the source) made an explicit argument;
`shiftFrom_prev_irrelevant` below shows the result never depends on it
for the three face cycles the program uses. -/
def shiftFrom (prev : Color) (p : Piece) (faceIndices : Face × Face × Face × Face)
    (clockwise : Bool) : Piece :=
  match faceIndices with
  | (f0, f1, f2, f3) =>
    if !clockwise then
      (shiftSwap (shiftSwap (shiftSwap (shiftSwap (shiftSwap (p, prev) f0) f1) f2) f3) f0).1
    else
      (shiftSwap (shiftSwap (shiftSwap (shiftSwap (shiftSwap (p, prev) f3) f2) f1) f0) f3).1

def shift (p : Piece) (faceIndices : Face × Face × Face × Face) (clockwise : Bool) : Piece :=
  shiftFrom Color.None p faceIndices clockwise

def rotate (p : Piece) (axis : Axis) (clockwise : Bool) : Piece :=
  match axis with
  | Axis.X => shift p (Face.Top, Face.Back, Face.Bottom, Face.Front) clockwise
  | Axis.Y => shift p (Face.Front, Face.Left, Face.Back, Face.Right) clockwise
  | Axis.Z => shift p (Face.Top, Face.Left, Face.Bottom, Face.Right) clockwise

theorem shiftFrom_prev_irrelevant (g g' : Color) (p : Piece) (clockwise : Bool) :
    shiftFrom g p (Face.Top, Face.Back, Face.Bottom, Face.Front) clockwise
      = shiftFrom g' p (Face.Top, Face.Back, Face.Bottom, Face.Front) clockwise
    ∧ shiftFrom g p (Face.Front, Face.Left, Face.Back, Face.Right) clockwise
      = shiftFrom g' p (Face.Front, Face.Left, Face.Back, Face.Right) clockwise
    ∧ shiftFrom g p (Face.Top, Face.Left, Face.Bottom, Face.Right) clockwise
      = shiftFrom g' p (Face.Top, Face.Left, Face.Bottom, Face.Right) clockwise := by
  cases clockwise <;> exact ⟨rfl, rfl, rfl⟩

/-- Explicit form of the clockwise quarter-turn about X: the color at Back
moves to Top, Bottom to Back, Front to Bottom, Top to Front. -/
theorem rotate_X_true (p : Piece) :
    rotate p Axis.X true = ⟨p.back, p.left, p.top, p.right, p.bottom, p.front⟩ := rfl

theorem rotate_X_false (p : Piece) :
    rotate p Axis.X false = ⟨p.front, p.left, p.bottom, p.right, p.top, p.back⟩ := rfl

theorem rotate_Y_true (p : Piece) :
    rotate p Axis.Y true = ⟨p.top, p.back, p.left, p.front, p.right, p.bottom⟩ := rfl

theorem rotate_Y_false (p : Piece) :
    rotate p Axis.Y false = ⟨p.top, p.front, p.right, p.back, p.left, p.bottom⟩ := rfl

theorem rotate_Z_true (p : Piece) :
    rotate p Axis.Z true = ⟨p.left, p.bottom, p.front, p.top, p.back, p.right⟩ := rfl

theorem rotate_Z_false (p : Piece) :
    rotate p Axis.Z false = ⟨p.right, p.top, p.front, p.bottom, p.back, p.left⟩ := rfl

theorem rotate_rotate_not (p : Piece) (a : Axis) (d : Bool) :
    rotate (rotate p a d) a (!d) = p := by
  cases a <;> cases d <;>
    simp only [rotate_X_true, rotate_X_false, rotate_Y_true, rotate_Y_false,
      rotate_Z_true, rotate_Z_false, Bool.not_false, Bool.not_true]

theorem rotate_four (p : Piece) (a : Axis) (d : Bool) :
    rotate (rotate (rotate (rotate p a d) a d) a d) a d = p := by
  cases a <;> cases d <;>
    simp only [rotate_X_true, rotate_X_false, rotate_Y_true, rotate_Y_false,
      rotate_Z_true, rotate_Z_false]

/-- Number of defined (non-`None`) color slots of a piece. -/
def definedCount (p : Piece) : Nat :=
  (if has p Face.Top then 1 else 0) + (if has p Face.Left then 1 else 0)
    + (if has p Face.Front then 1 else 0) + (if has p Face.Right then 1 else 0)
    + (if has p Face.Back then 1 else 0) + (if has p Face.Bottom then 1 else 0)

theorem definedCount_rotate (p : Piece) (a : Axis) (d : Bool) :
    definedCount (rotate p a d) = definedCount p := by
  cases a <;> cases d <;>
    simp only [rotate_X_true, rotate_X_false, rotate_Y_true, rotate_Y_false,
      rotate_Z_true, rotate_Z_false, definedCount, has, Piece.get] <;>
    ring

end piece

namespace cube

@[ext]
structure Coord where
  x : Nat
  y : Nat
  z : Nat
deriving DecidableEq

/-- `cube::index`: flat storage index of cell (x, y, z). -/
def index (cubeSize x y z : Nat) : Nat :=
  (z * cubeSize + y) * cubeSize + x

def indexC (cubeSize : Nat) (c : Coord) : Nat :=
  index cubeSize c.x c.y c.z

/-- Decomposition of a flat index back into (x, y, z), exactly as done at
the end of the lambda inside `cube::planeToCube`. -/
def decodeIdx (cubeSize idx : Nat) : Coord :=
  let z := idx / (cubeSize * cubeSize)
  let layerIdx := idx - z * (cubeSize * cubeSize)
  let y := layerIdx / cubeSize
  let x := layerIdx % cubeSize
  ⟨x, y, z⟩

/-- The inner lambda of `cube::planeToCube`: `idx = begin + ly*yStride +
lx*xStride` computed in `size_t` arithmetic (for in-range inputs the value
is nonnegative and below `cubeSize³`, so `Int` followed by `toNat` is
exact), then decomposed into a coordinate. -/
def planeToCubeAux (cubeSize b : Nat) (xStride yStride : Int) (lx ly : Nat) : Coord :=
  decodeIdx cubeSize ((b : Int) + (ly : Int) * yStride + (lx : Int) * xStride).toNat

def isFirstHalf (cubeSize index : Nat) : Bool :=
  decide (index ≤ cubeSize / 2)

def inverseIndex (cubeSize index : Nat) : Nat :=
  cubeSize - 1 - index

def planeToCube (cubeSize : Nat) (l : Layer) (lx ly : Nat) : Coord :=
  match l.axis with
  | Axis.X =>
      planeToCubeAux cubeSize
        (if isFirstHalf cubeSize l.index then index cubeSize l.index 0 0
         else index cubeSize (cubeSize - 1 - inverseIndex cubeSize l.index) (cubeSize - 1) 0)
        ((if isFirstHalf cubeSize l.index then 1 else -1) * (cubeSize : Int))
        ((cubeSize : Int) * (cubeSize : Int))
        lx ly
  | Axis.Y =>
      planeToCubeAux cubeSize
        (if isFirstHalf cubeSize l.index then index cubeSize 0 (cubeSize - 1) (cubeSize - 1 - l.index)
         else index cubeSize 0 0 (cubeSize - 1 - l.index))
        1
        ((if isFirstHalf cubeSize l.index then -1 else 1) * (cubeSize : Int))
        lx ly
  | Axis.Z =>
      planeToCubeAux cubeSize
        (if isFirstHalf cubeSize l.index then index cubeSize 0 (cubeSize - 1 - l.index) 0
         else index cubeSize (cubeSize - 1) (cubeSize - 1 - l.index) 0)
        (if isFirstHalf cubeSize l.index then 1 else -1)
        ((cubeSize : Int) * (cubeSize : Int))
        lx ly

theorem decodeIdx_index (n x y z : Nat) (hx : x < n) (hy : y < n) :
    decodeIdx n (index n x y z) = ⟨x, y, z⟩ := by
  have hn : 0 < n := Nat.pos_of_ne_zero (by omega)
  have hs : y * n + x < n * n := by
    calc y * n + x < y * n + n := by omega
    _ = (y + 1) * n := by ring
    _ ≤ n * n := Nat.mul_le_mul_right n hy
  have hidx : index n x y z = (y * n + x) + (n * n) * z := by
    simp only [index]; ring
  have hz : ((y * n + x) + (n * n) * z) / (n * n) = z := by
    rw [Nat.add_mul_div_left _ _ (Nat.mul_pos hn hn), Nat.div_eq_of_lt hs, Nat.zero_add]
  have hsub : (y * n + x) + (n * n) * z - z * (n * n) = y * n + x := by
    rw [Nat.mul_comm (n * n) z, Nat.add_sub_cancel]
  have hy2 : (y * n + x) / n = y := by
    rw [show y * n + x = x + n * y from by ring, Nat.add_mul_div_left _ _ hn,
      Nat.div_eq_of_lt hx, Nat.zero_add]
  have hx2 : (y * n + x) % n = x := by
    rw [show y * n + x = x + y * n from by ring, Nat.add_mul_mod_self_right,
      Nat.mod_eq_of_lt hx]
  simp only [decodeIdx, hidx, hz, hsub, hy2, hx2]

theorem planeToCube_X_first (n d lx ly : Nat) (hd : d < n) (hh : d ≤ n / 2)
    (hlx : lx < n) (_hly : ly < n) :
    planeToCube n ⟨Axis.X, d⟩ lx ly = ⟨d, lx, ly⟩ := by
  have hfh : isFirstHalf n d = true := by simp only [isFirstHalf, decide_eq_true_eq]; omega
  have key : ((index n d 0 0 : Nat) : Int) + (ly : Int) * ((n : Int) * n) + (lx : Int) * (1 * n)
      = ((index n d lx ly : Nat) : Int) := by
    simp only [index]; push_cast; ring
  simp only [planeToCube, hfh, if_true, planeToCubeAux]
  rw [key, Int.toNat_natCast]
  exact decodeIdx_index n d lx ly hd hlx

theorem planeToCube_X_second (n d lx ly : Nat) (hd : d < n) (hh : ¬ d ≤ n / 2)
    (hlx : lx < n) (_hly : ly < n) :
    planeToCube n ⟨Axis.X, d⟩ lx ly = ⟨d, n - 1 - lx, ly⟩ := by
  have hfh : isFirstHalf n d = false := by
    simp only [isFirstHalf, decide_eq_false_iff_not]; omega
  have h1 : n - 1 - inverseIndex n d = d := by simp only [inverseIndex]; omega
  have key : ((index n d (n - 1) 0 : Nat) : Int) + (ly : Int) * ((n : Int) * n)
        + (lx : Int) * (-1 * n)
      = ((index n d (n - 1 - lx) ly : Nat) : Int) := by
    have e1 : ((n - 1 : Nat) : Int) = (n : Int) - 1 := by omega
    have e2 : ((n - 1 - lx : Nat) : Int) = (n : Int) - 1 - lx := by omega
    simp only [index]
    push_cast [e1, e2]
    ring
  simp only [planeToCube, hfh, Bool.false_eq_true, if_false, planeToCubeAux, h1]
  rw [key, Int.toNat_natCast]
  exact decodeIdx_index n d (n - 1 - lx) ly hd (by omega)

theorem planeToCube_Y_first (n d lx ly : Nat) (hd : d < n) (hh : d ≤ n / 2)
    (hlx : lx < n) (hly : ly < n) :
    planeToCube n ⟨Axis.Y, d⟩ lx ly = ⟨lx, n - 1 - ly, n - 1 - d⟩ := by
  have hfh : isFirstHalf n d = true := by simp only [isFirstHalf, decide_eq_true_eq]; omega
  have key : ((index n 0 (n - 1) (n - 1 - d) : Nat) : Int) + (ly : Int) * (-1 * (n : Int))
        + (lx : Int) * 1
      = ((index n lx (n - 1 - ly) (n - 1 - d) : Nat) : Int) := by
    have e1 : ((n - 1 : Nat) : Int) = (n : Int) - 1 := by omega
    have e2 : ((n - 1 - ly : Nat) : Int) = (n : Int) - 1 - ly := by omega
    have e3 : ((n - 1 - d : Nat) : Int) = (n : Int) - 1 - d := by omega
    simp only [index]
    push_cast [e1, e2, e3]
    ring
  simp only [planeToCube, hfh, if_true, planeToCubeAux]
  rw [key, Int.toNat_natCast]
  exact decodeIdx_index n lx (n - 1 - ly) (n - 1 - d) hlx (by omega)

theorem planeToCube_Y_second (n d lx ly : Nat) (hd : d < n) (hh : ¬ d ≤ n / 2)
    (hlx : lx < n) (hly : ly < n) :
    planeToCube n ⟨Axis.Y, d⟩ lx ly = ⟨lx, ly, n - 1 - d⟩ := by
  have hfh : isFirstHalf n d = false := by
    simp only [isFirstHalf, decide_eq_false_iff_not]; omega
  have key : ((index n 0 0 (n - 1 - d) : Nat) : Int) + (ly : Int) * (1 * (n : Int))
        + (lx : Int) * 1
      = ((index n lx ly (n - 1 - d) : Nat) : Int) := by
    have e3 : ((n - 1 - d : Nat) : Int) = (n : Int) - 1 - d := by omega
    simp only [index]
    push_cast [e3]
    ring
  simp only [planeToCube, hfh, Bool.false_eq_true, if_false, planeToCubeAux]
  rw [key, Int.toNat_natCast]
  exact decodeIdx_index n lx ly (n - 1 - d) hlx hly

theorem planeToCube_Z_first (n d lx ly : Nat) (hd : d < n) (hh : d ≤ n / 2)
    (hlx : lx < n) (_hly : ly < n) :
    planeToCube n ⟨Axis.Z, d⟩ lx ly = ⟨lx, n - 1 - d, ly⟩ := by
  have hfh : isFirstHalf n d = true := by simp only [isFirstHalf, decide_eq_true_eq]; omega
  have key : ((index n 0 (n - 1 - d) 0 : Nat) : Int) + (ly : Int) * ((n : Int) * n)
        + (lx : Int) * 1
      = ((index n lx (n - 1 - d) ly : Nat) : Int) := by
    have e3 : ((n - 1 - d : Nat) : Int) = (n : Int) - 1 - d := by omega
    simp only [index]
    push_cast [e3]
    ring
  simp only [planeToCube, hfh, if_true, planeToCubeAux]
  rw [key, Int.toNat_natCast]
  exact decodeIdx_index n lx (n - 1 - d) ly hlx (by omega)

theorem planeToCube_Z_second (n d lx ly : Nat) (hd : d < n) (hh : ¬ d ≤ n / 2)
    (hlx : lx < n) (_hly : ly < n) :
    planeToCube n ⟨Axis.Z, d⟩ lx ly = ⟨n - 1 - lx, n - 1 - d, ly⟩ := by
  have hfh : isFirstHalf n d = false := by
    simp only [isFirstHalf, decide_eq_false_iff_not]; omega
  have key : ((index n (n - 1) (n - 1 - d) 0 : Nat) : Int) + (ly : Int) * ((n : Int) * n)
        + (lx : Int) * (-1)
      = ((index n (n - 1 - lx) (n - 1 - d) ly : Nat) : Int) := by
    have e1 : ((n - 1 : Nat) : Int) = (n : Int) - 1 := by omega
    have e2 : ((n - 1 - lx : Nat) : Int) = (n : Int) - 1 - lx := by omega
    have e3 : ((n - 1 - d : Nat) : Int) = (n : Int) - 1 - d := by omega
    simp only [index]
    push_cast [e1, e2, e3]
    ring
  simp only [planeToCube, hfh, Bool.false_eq_true, if_false, planeToCubeAux]
  rw [key, Int.toNat_natCast]
  exact decodeIdx_index n (n - 1 - lx) (n - 1 - d) ly (by omega) (by omega)

theorem index_lt (n x y z : Nat) (hx : x < n) (hy : y < n) (hz : z < n) :
    index n x y z < n * n * n := by
  have h1 : z * n + y < n * n := by
    calc z * n + y < z * n + n := by omega
    _ = (z + 1) * n := by ring
    _ ≤ n * n := Nat.mul_le_mul_right n hz
  calc (z * n + y) * n + x < (z * n + y) * n + n := by omega
  _ = (z * n + y + 1) * n := by ring
  _ ≤ (n * n) * n := Nat.mul_le_mul_right n h1
  _ = n * n * n := rfl

theorem index_inj (n x y z x' y' z' : Nat) (hx : x < n) (hy : y < n)
    (hx' : x' < n) (hy' : y' < n) (h : index n x y z = index n x' y' z') :
    x = x' ∧ y = y' ∧ z = z' := by
  have h2 := congrArg (decodeIdx n) h
  rw [decodeIdx_index n x y z hx hy, decodeIdx_index n x' y' z' hx' hy'] at h2
  exact ⟨congrArg Coord.x h2, congrArg Coord.y h2, congrArg Coord.z h2⟩

/-- Flat index of the cell addressed by the layer mapping at (lx, ly):
`index(cubeSize, mapping(lx, ly))` in the source. -/
def mapIdx (cubeSize : Nat) (l : Layer) (lx ly : Nat) : Nat :=
  indexC cubeSize (planeToCube cubeSize l lx ly)

theorem planeToCube_bounds (n : Nat) (l : Layer) (hl : l.index < n)
    (lx ly : Nat) (hlx : lx < n) (hly : ly < n) :
    (planeToCube n l lx ly).x < n ∧ (planeToCube n l lx ly).y < n
      ∧ (planeToCube n l lx ly).z < n := by
  obtain ⟨ax, d⟩ := l
  simp only at hl
  cases ax <;> by_cases hh : d ≤ n / 2
  · rw [planeToCube_X_first n d lx ly hl hh hlx hly]
    refine ⟨?_, ?_, ?_⟩ <;> dsimp only <;> omega
  · rw [planeToCube_X_second n d lx ly hl hh hlx hly]
    refine ⟨?_, ?_, ?_⟩ <;> dsimp only <;> omega
  · rw [planeToCube_Y_first n d lx ly hl hh hlx hly]
    refine ⟨?_, ?_, ?_⟩ <;> dsimp only <;> omega
  · rw [planeToCube_Y_second n d lx ly hl hh hlx hly]
    refine ⟨?_, ?_, ?_⟩ <;> dsimp only <;> omega
  · rw [planeToCube_Z_first n d lx ly hl hh hlx hly]
    refine ⟨?_, ?_, ?_⟩ <;> dsimp only <;> omega
  · rw [planeToCube_Z_second n d lx ly hl hh hlx hly]
    refine ⟨?_, ?_, ?_⟩ <;> dsimp only <;> omega

/-- The coordinate that the mapping holds fixed over the whole layer:
`x = depth` for an X layer, `z = cubeSize - 1 - depth` for a Y layer, and
`y = cubeSize - 1 - depth` for a Z layer. -/
theorem planeToCube_fixed_coord (n : Nat) (l : Layer) (hl : l.index < n)
    (lx ly : Nat) (hlx : lx < n) (hly : ly < n) :
    (match l.axis with
     | Axis.X => (planeToCube n l lx ly).x = l.index
     | Axis.Y => (planeToCube n l lx ly).z = n - 1 - l.index
     | Axis.Z => (planeToCube n l lx ly).y = n - 1 - l.index) := by
  obtain ⟨ax, d⟩ := l
  simp only at hl ⊢
  cases ax <;> by_cases hh : d ≤ n / 2
  · rw [planeToCube_X_first n d lx ly hl hh hlx hly]
  · rw [planeToCube_X_second n d lx ly hl hh hlx hly]
  · rw [planeToCube_Y_first n d lx ly hl hh hlx hly]
  · rw [planeToCube_Y_second n d lx ly hl hh hlx hly]
  · rw [planeToCube_Z_first n d lx ly hl hh hlx hly]
  · rw [planeToCube_Z_second n d lx ly hl hh hlx hly]

theorem planeToCube_inj (n : Nat) (l : Layer) (hl : l.index < n)
    {lx ly lx' ly' : Nat} (hlx : lx < n) (hly : ly < n) (hlx' : lx' < n) (hly' : ly' < n)
    (h : planeToCube n l lx ly = planeToCube n l lx' ly') : lx = lx' ∧ ly = ly' := by
  obtain ⟨ax, d⟩ := l
  simp only at hl
  cases ax <;> by_cases hh : d ≤ n / 2
  · rw [planeToCube_X_first n d lx ly hl hh hlx hly,
      planeToCube_X_first n d lx' ly' hl hh hlx' hly'] at h
    have := congrArg Coord.y h; have := congrArg Coord.z h
    simp only at *; omega
  · rw [planeToCube_X_second n d lx ly hl hh hlx hly,
      planeToCube_X_second n d lx' ly' hl hh hlx' hly'] at h
    have := congrArg Coord.y h; have := congrArg Coord.z h
    simp only at *; omega
  · rw [planeToCube_Y_first n d lx ly hl hh hlx hly,
      planeToCube_Y_first n d lx' ly' hl hh hlx' hly'] at h
    have := congrArg Coord.x h; have := congrArg Coord.y h
    simp only at *; omega
  · rw [planeToCube_Y_second n d lx ly hl hh hlx hly,
      planeToCube_Y_second n d lx' ly' hl hh hlx' hly'] at h
    have := congrArg Coord.x h; have := congrArg Coord.y h
    simp only at *; omega
  · rw [planeToCube_Z_first n d lx ly hl hh hlx hly,
      planeToCube_Z_first n d lx' ly' hl hh hlx' hly'] at h
    have := congrArg Coord.x h; have := congrArg Coord.z h
    simp only at *; omega
  · rw [planeToCube_Z_second n d lx ly hl hh hlx hly,
      planeToCube_Z_second n d lx' ly' hl hh hlx' hly'] at h
    have := congrArg Coord.x h; have := congrArg Coord.z h
    simp only at *; omega

theorem mapIdx_lt (n : Nat) (l : Layer) (hl : l.index < n)
    (lx ly : Nat) (hlx : lx < n) (hly : ly < n) :
    mapIdx n l lx ly < n * n * n := by
  obtain ⟨hx, hy, hz⟩ := planeToCube_bounds n l hl lx ly hlx hly
  exact index_lt n _ _ _ hx hy hz

theorem mapIdx_inj (n : Nat) (l : Layer) (hl : l.index < n)
    {lx ly lx' ly' : Nat} (hlx : lx < n) (hly : ly < n) (hlx' : lx' < n) (hly' : ly' < n)
    (h : mapIdx n l lx ly = mapIdx n l lx' ly') : lx = lx' ∧ ly = ly' := by
  obtain ⟨hx, hy, _⟩ := planeToCube_bounds n l hl lx ly hlx hly
  obtain ⟨hx', hy', _⟩ := planeToCube_bounds n l hl lx' ly' hlx' hly'
  apply planeToCube_inj n l hl hlx hly hlx' hly'
  obtain ⟨e1, e2, e3⟩ := index_inj n _ _ _ _ _ _ hx hy hx' hy' h
  exact Coord.ext e1 e2 e3

end cube

/-- `typedef std::vector<Piece> Cube`. -/
abbrev Cube := List Piece

/-- `cube[i]` (reads are always in bounds in the program; the default is
irrelevant). -/
def getPiece (c : Cube) (i : Nat) : Piece :=
  c.getD i piece.default_piece

/-- `cube[i] = p`. -/
def setPiece (c : Cube) (i : Nat) (p : Piece) : Cube :=
  c.set i p

/-- `std::swap(cube[i], cube[j])`. -/
def swapPieces (c : Cube) (i j : Nat) : Cube :=
  setPiece (setPiece c i (getPiece c j)) j (getPiece c i)

theorem length_setPiece (c : Cube) (i : Nat) (p : Piece) :
    (setPiece c i p).length = c.length :=
  List.length_set c i p

theorem length_swapPieces (c : Cube) (i j : Nat) :
    (swapPieces c i j).length = c.length := by
  simp [swapPieces, length_setPiece]

theorem getPiece_setPiece_self (c : Cube) (i : Nat) (p : Piece) (h : i < c.length) :
    getPiece (setPiece c i p) i = p := by
  simp [getPiece, setPiece, List.getD, List.getElem?_set_self, h]

theorem getPiece_setPiece_other (c : Cube) (i j : Nat) (p : Piece) (h : j ≠ i) :
    getPiece (setPiece c i p) j = getPiece c j := by
  simp [getPiece, setPiece, List.getD, List.getElem?_set_ne (by omega : i ≠ j)]

theorem getPiece_swapPieces_left (c : Cube) (i j : Nat) (hi : i < c.length)
    (hj : j < c.length) : getPiece (swapPieces c i j) i = getPiece c j := by
  by_cases hij : i = j
  · subst hij
    rw [swapPieces, getPiece_setPiece_self]
    rw [length_setPiece]; exact hi
  · rw [swapPieces, getPiece_setPiece_other _ _ _ _ (by omega : i ≠ j),
      getPiece_setPiece_self _ _ _ hi]

theorem getPiece_swapPieces_right (c : Cube) (i j : Nat) (hi : i < c.length)
    (hj : j < c.length) : getPiece (swapPieces c i j) j = getPiece c i := by
  rw [swapPieces, getPiece_setPiece_self]
  rw [length_setPiece]; exact hj

theorem getPiece_swapPieces_other (c : Cube) (i j k : Nat) (h1 : k ≠ i) (h2 : k ≠ j) :
    getPiece (swapPieces c i j) k = getPiece c k := by
  rw [swapPieces, getPiece_setPiece_other _ _ _ _ h2, getPiece_setPiece_other _ _ _ _ h1]

/-- A counted `for` loop: `for (i = 0; i < k; i++) c = f(c, i);`. -/
def foldRange (k : Nat) (f : Cube → Nat → Cube) (c : Cube) : Cube :=
  (List.range k).foldl f c

theorem foldRange_succ (k : Nat) (f : Cube → Nat → Cube) (c : Cube) :
    foldRange (k + 1) f c = f (foldRange k f c) k := by
  simp [foldRange, List.range_succ]

theorem foldRange_length :
    ∀ (k : Nat) (f : Cube → Nat → Cube) (c : Cube),
      (∀ c' i, i < k → (f c' i).length = c'.length) →
      (foldRange k f c).length = c.length
  | 0, _, _, _ => rfl
  | (k+1), f, c, h => by
      rw [foldRange_succ, h _ k (Nat.lt_succ_self k),
        foldRange_length k f c (fun c' i hi => h c' i (Nat.lt_succ_of_lt hi))]

/-- Frame rule for a loop: a cell outside every iteration's footprint `P`
is untouched. -/
theorem foldRange_frame :
    ∀ (k : Nat) (f : Cube → Nat → Cube) (P : Nat → Nat → Prop) (c : Cube) (j : Nat),
      (∀ c' i, i < k → ∀ j', ¬ P i j' → getPiece (f c' i) j' = getPiece c' j') →
      (∀ i, i < k → ¬ P i j) →
      getPiece (foldRange k f c) j = getPiece c j
  | 0, _, _, _, _, _, _ => rfl
  | (k+1), f, P, c, j, hframe, hj => by
      rw [foldRange_succ,
        hframe _ k (Nat.lt_succ_self k) j (hj k (Nat.lt_succ_self k)),
        foldRange_frame k f P c j (fun c' i hi => hframe c' i (Nat.lt_succ_of_lt hi))
          (fun i hi => hj i (Nat.lt_succ_of_lt hi))]

/-- Computation rule for a loop whose iterations have pairwise disjoint
footprints and whose body is local to its footprint: on iteration `i`'s
footprint the loop behaves like iteration `i` run on the initial state. -/
theorem foldRange_compute :
    ∀ (k : Nat) (f : Cube → Nat → Cube) (P : Nat → Nat → Prop) (c : Cube),
      (∀ c' i, i < k → ∀ j', ¬ P i j' → getPiece (f c' i) j' = getPiece c' j') →
      (∀ i₁ i₂ j', i₁ < k → i₂ < k → i₁ ≠ i₂ → P i₁ j' → ¬ P i₂ j') →
      (∀ c' i, i < k → (f c' i).length = c'.length) →
      (∀ c₁ c₂ i, i < k → c₁.length = c.length → c₂.length = c.length →
        (∀ j', P i j' → getPiece c₁ j' = getPiece c₂ j') →
        ∀ j', P i j' → getPiece (f c₁ i) j' = getPiece (f c₂ i) j') →
      ∀ i, i < k → ∀ j, P i j →
      getPiece (foldRange k f c) j = getPiece (f c i) j
  | 0, _, _, _, _, _, _, _, _, hi, _, _ => absurd hi (Nat.not_lt_zero _)
  | (k+1), f, P, c, hframe, hdisj, hlen, hlocal, i, hi, j, hj => by
      rw [foldRange_succ]
      by_cases hik : i = k
      · rw [hik] at hj ⊢
        exact hlocal (foldRange k f c) c k (Nat.lt_succ_self k)
          (foldRange_length k f c (fun c' i' hi' => hlen c' i' (Nat.lt_succ_of_lt hi')))
          rfl
          (fun j' hj' => foldRange_frame k f P c j'
            (fun c' i' hi' => hframe c' i' (Nat.lt_succ_of_lt hi'))
            (fun i' hi' => hdisj k i' j' (Nat.lt_succ_self k) (Nat.lt_succ_of_lt hi')
              (by omega) hj'))
          j hj
      · have hik' : i < k := by omega
        rw [hframe _ k (Nat.lt_succ_self k) j
          (hdisj i k j hi (Nat.lt_succ_self k) hik hj)]
        exact foldRange_compute k f P c
          (fun c' i' hi' => hframe c' i' (Nat.lt_succ_of_lt hi'))
          (fun i₁ i₂ j' h1 h2 => hdisj i₁ i₂ j' (Nat.lt_succ_of_lt h1) (Nat.lt_succ_of_lt h2))
          (fun c' i' hi' => hlen c' i' (Nat.lt_succ_of_lt hi'))
          (fun c₁ c₂ i' hi' => hlocal c₁ c₂ i' (Nat.lt_succ_of_lt hi'))
          i hik' j hj

/-- Generic loop of swaps `for (t = 0; t < k; t++) swap(c[A t], c[B t])`:
length is preserved. -/
theorem swapLoop_length (k : Nat) (A B : Nat → Nat) (c : Cube) :
    (foldRange k (fun c' t => swapPieces c' (A t) (B t)) c).length = c.length :=
  foldRange_length k _ c (fun c' t _ => length_swapPieces c' (A t) (B t))

/-- A cell mentioned by no swap of the loop is untouched. -/
theorem swapLoop_frame (k : Nat) (A B : Nat → Nat) (c : Cube) (j : Nat)
    (h : ∀ i, i < k → j ≠ A i ∧ j ≠ B i) :
    getPiece (foldRange k (fun c' t => swapPieces c' (A t) (B t)) c) j = getPiece c j :=
  foldRange_frame k _ (fun t j' => j' = A t ∨ j' = B t) c j
    (fun c' t _ j' hP => by
      rw [not_or] at hP
      exact getPiece_swapPieces_other c' _ _ j' hP.1 hP.2)
    (fun i hi => by rw [not_or]; exact h i hi)

/-- If the swapped pairs are pairwise disjoint across iterations, the loop
exchanges each pair. -/
theorem swapLoop_get (k : Nat) (A B : Nat → Nat) (c : Cube)
    (hA : ∀ i, i < k → A i < c.length) (hB : ∀ i, i < k → B i < c.length)
    (hdistinct : ∀ i1 i2, i1 < k → i2 < k → i1 ≠ i2 →
      A i1 ≠ A i2 ∧ A i1 ≠ B i2 ∧ B i1 ≠ A i2 ∧ B i1 ≠ B i2)
    (i : Nat) (hi : i < k) :
    getPiece (foldRange k (fun c' t => swapPieces c' (A t) (B t)) c) (A i) = getPiece c (B i)
    ∧ getPiece (foldRange k (fun c' t => swapPieces c' (A t) (B t)) c) (B i)
      = getPiece c (A i) := by
  have hcomp := foldRange_compute k (fun c' t => swapPieces c' (A t) (B t))
    (fun t j' => j' = A t ∨ j' = B t) c
    (fun c' t _ j' hP => by
      rw [not_or] at hP
      exact getPiece_swapPieces_other c' _ _ j' hP.1 hP.2)
    (fun i1 i2 j' h1 h2 hne hP1 => by
      obtain ⟨d1, d2, d3, d4⟩ := hdistinct i1 i2 h1 h2 hne
      rcases hP1 with rfl | rfl
      · rw [not_or]; exact ⟨d1, d2⟩
      · rw [not_or]; exact ⟨d3, d4⟩)
    (fun c' t _ => length_swapPieces c' (A t) (B t))
    (fun c1 c2 t ht hl1 hl2 hagree j' hP => by
      rcases hP with rfl | rfl
      · rw [getPiece_swapPieces_left c1 _ _ (by rw [hl1]; exact hA t ht)
            (by rw [hl1]; exact hB t ht),
          getPiece_swapPieces_left c2 _ _ (by rw [hl2]; exact hA t ht)
            (by rw [hl2]; exact hB t ht)]
        exact hagree (B t) (Or.inr rfl)
      · rw [getPiece_swapPieces_right c1 _ _ (by rw [hl1]; exact hA t ht)
            (by rw [hl1]; exact hB t ht),
          getPiece_swapPieces_right c2 _ _ (by rw [hl2]; exact hA t ht)
            (by rw [hl2]; exact hB t ht)]
        exact hagree (A t) (Or.inl rfl))
  constructor
  · rw [hcomp i hi (A i) (Or.inl rfl),
      getPiece_swapPieces_left c _ _ (hA i hi) (hB i hi)]
  · rw [hcomp i hi (B i) (Or.inr rfl),
      getPiece_swapPieces_right c _ _ (hA i hi) (hB i hi)]

/-- Generic loop of in-place updates
`for (t = 0; t < k; t++) c[A t] = g(c[A t])`: length is preserved. -/
theorem setLoop_length (k : Nat) (A : Nat → Nat) (g : Piece → Piece) (c : Cube) :
    (foldRange k (fun c' t => setPiece c' (A t) (g (getPiece c' (A t)))) c).length
      = c.length :=
  foldRange_length k _ c (fun c' t _ => length_setPiece c' (A t) _)

theorem setLoop_frame (k : Nat) (A : Nat → Nat) (g : Piece → Piece) (c : Cube) (j : Nat)
    (h : ∀ i, i < k → j ≠ A i) :
    getPiece (foldRange k (fun c' t => setPiece c' (A t) (g (getPiece c' (A t)))) c) j
      = getPiece c j :=
  foldRange_frame k _ (fun t j' => j' = A t) c j
    (fun c' t _ j' hP => getPiece_setPiece_other c' _ j' _ hP)
    (fun i hi => h i hi)

theorem setLoop_get (k : Nat) (A : Nat → Nat) (g : Piece → Piece) (c : Cube)
    (hA : ∀ i, i < k → A i < c.length)
    (hdistinct : ∀ i1 i2, i1 < k → i2 < k → i1 ≠ i2 → A i1 ≠ A i2)
    (i : Nat) (hi : i < k) :
    getPiece (foldRange k (fun c' t => setPiece c' (A t) (g (getPiece c' (A t)))) c) (A i)
      = g (getPiece c (A i)) := by
  have hcomp := foldRange_compute k (fun c' t => setPiece c' (A t) (g (getPiece c' (A t))))
    (fun t j' => j' = A t) c
    (fun c' t _ j' hP => getPiece_setPiece_other c' _ j' _ hP)
    (fun i1 i2 j' h1 h2 hne hP1 => by
      rcases hP1 with rfl
      exact hdistinct i1 i2 h1 h2 hne)
    (fun c' t _ => length_setPiece c' (A t) _)
    (fun c1 c2 t ht hl1 hl2 hagree j' hP => by
      rcases hP with rfl
      rw [getPiece_setPiece_self c1 _ _ (by rw [hl1]; exact hA t ht),
        getPiece_setPiece_self c2 _ _ (by rw [hl2]; exact hA t ht),
        hagree (A t) rfl])
  rw [hcomp i hi (A i) rfl, getPiece_setPiece_self c _ _ (hA i hi)]

namespace cube

/-- Inner loop of the clockwise (vertical) flip in `cube::rotate`, for one
row `y`: `for (x = 0; x < n; x++) swap(cube[map(x,y)], cube[map(x,n-1-y)])`. -/
def flipRowV (cubeSize : Nat) (l : Layer) (y : Nat) (c : Cube) : Cube :=
  foldRange cubeSize
    (fun c' x => swapPieces c' (mapIdx cubeSize l x y) (mapIdx cubeSize l x (cubeSize - 1 - y)))
    c

/-- The clockwise flip of `cube::rotate` (flip vertically):
`for (y = 0; y < n/2; y++)` over `flipRowV`. -/
def flipV (cubeSize : Nat) (l : Layer) (c : Cube) : Cube :=
  foldRange (cubeSize / 2) (fun c' y => flipRowV cubeSize l y c') c

/-- Inner loop of the counter-clockwise (horizontal) flip, for one row `y`:
`for (x = 0; x < n/2; x++) swap(cube[map(x,y)], cube[map(n-1-x,y)])`. -/
def flipRowH (cubeSize : Nat) (l : Layer) (y : Nat) (c : Cube) : Cube :=
  foldRange (cubeSize / 2)
    (fun c' x => swapPieces c' (mapIdx cubeSize l x y) (mapIdx cubeSize l (cubeSize - 1 - x) y))
    c

/-- The counter-clockwise flip of `cube::rotate` (flip horizontally):
`for (y = 0; y < n; y++)` over `flipRowH`. -/
def flipH (cubeSize : Nat) (l : Layer) (c : Cube) : Cube :=
  foldRange cubeSize (fun c' y => flipRowH cubeSize l y c') c

/-- Inner loop of the transpose phase for one row `y`:
`for (x = y+1; x < n; x++) swap(cube[map(x,y)], cube[map(y,x)])`, with the
loop variable shifted to start at 0. -/
def transposeRow (cubeSize : Nat) (l : Layer) (y : Nat) (c : Cube) : Cube :=
  foldRange (cubeSize - (y + 1))
    (fun c' t => swapPieces c' (mapIdx cubeSize l (y + 1 + t) y) (mapIdx cubeSize l y (y + 1 + t)))
    c

/-- Transpose phase of `cube::rotate`: `for (y = 0; y < n-1; y++)` over
`transposeRow`. -/
def transposeBlock (cubeSize : Nat) (l : Layer) (c : Cube) : Cube :=
  foldRange (cubeSize - 1) (fun c' y => transposeRow cubeSize l y c') c

/-- Inner loop of the piece-reorientation phase for one row `y`:
`for (x = 0; x < n; x++) cube[map(x,y)] = piece::rotate(cube[map(x,y)], axis, dir)`. -/
def rotateRow (cubeSize : Nat) (l : Layer) (dir : Bool) (y : Nat) (c : Cube) : Cube :=
  foldRange cubeSize
    (fun c' x => setPiece c' (mapIdx cubeSize l x y)
      (piece.rotate (getPiece c' (mapIdx cubeSize l x y)) l.axis dir))
    c

/-- Piece-reorientation phase: `for (y = 0; y < n; y++)` over `rotateRow`. -/
def rotatePieces (cubeSize : Nat) (l : Layer) (dir : Bool) (c : Cube) : Cube :=
  foldRange cubeSize (fun c' y => rotateRow cubeSize l dir y c') c

/-- The local flag `const bool clockwisePiece = (layer.index <= cubeSize/2)`
of `cube::rotate`. -/
def clockwisePiece (cubeSize : Nat) (l : Layer) : Bool :=
  decide (l.index ≤ cubeSize / 2)

/-- `cube::rotate`: flip (direction chosen by `clockwise`), transpose, then
reorient every piece of the layer, with the reorientation direction flipped
for layers on the far side of the axis. -/
def rotate (cubeSize : Nat) (cube : Cube) (l : Layer) (clockwise : Bool) : Cube :=
  let cube1 := if clockwise then flipV cubeSize l cube else flipH cubeSize l cube
  let cube2 := transposeBlock cubeSize l cube1
  rotatePieces cubeSize l (if clockwisePiece cubeSize l then clockwise else !clockwise) cube2

theorem flipRowV_length (n : Nat) (l : Layer) (y : Nat) (c : Cube) :
    (flipRowV n l y c).length = c.length :=
  swapLoop_length n (fun x => mapIdx n l x y) (fun x => mapIdx n l x (n - 1 - y)) c

theorem flipRowV_frame (n : Nat) (l : Layer) (y : Nat) (c : Cube) (j : Nat)
    (h : ∀ x, x < n → j ≠ mapIdx n l x y ∧ j ≠ mapIdx n l x (n - 1 - y)) :
    getPiece (flipRowV n l y c) j = getPiece c j :=
  swapLoop_frame n (fun x => mapIdx n l x y) (fun x => mapIdx n l x (n - 1 - y)) c j h

theorem flipRowV_get (n : Nat) (l : Layer) (hl : l.index < n) (y : Nat) (hy : y < n)
    (c : Cube) (hc : c.length = n * n * n) (x : Nat) (hx : x < n) :
    getPiece (flipRowV n l y c) (mapIdx n l x y) = getPiece c (mapIdx n l x (n - 1 - y))
    ∧ getPiece (flipRowV n l y c) (mapIdx n l x (n - 1 - y))
      = getPiece c (mapIdx n l x y) :=
  swapLoop_get n (fun x' => mapIdx n l x' y) (fun x' => mapIdx n l x' (n - 1 - y)) c
    (fun i hi => by rw [hc]; exact mapIdx_lt n l hl i y hi hy)
    (fun i hi => by rw [hc]; exact mapIdx_lt n l hl i (n - 1 - y) hi (by omega))
    (fun i1 i2 h1 h2 hne =>
      ⟨fun he => hne (mapIdx_inj n l hl h1 hy h2 hy he).1,
       fun he => by have := mapIdx_inj n l hl h1 hy h2 (by omega) he; omega,
       fun he => by have := mapIdx_inj n l hl h1 (by omega) h2 hy he; omega,
       fun he => hne (mapIdx_inj n l hl h1 (by omega) h2 (by omega) he).1⟩)
    x hx

theorem flipV_length (n : Nat) (l : Layer) (c : Cube) :
    (flipV n l c).length = c.length :=
  foldRange_length (n / 2) _ c (fun c' i _ => flipRowV_length n l i c')

theorem flipV_frame (n : Nat) (l : Layer) (c : Cube) (j : Nat)
    (h : ∀ x' y', x' < n → y' < n → j ≠ mapIdx n l x' y') :
    getPiece (flipV n l c) j = getPiece c j := by
  apply foldRange_frame (n / 2) _
    (fun i j' => ∃ x', x' < n ∧ (j' = mapIdx n l x' i ∨ j' = mapIdx n l x' (n - 1 - i))) c j
  · intro c' i hi j' hP
    apply flipRowV_frame
    intro x' hx'
    push_neg at hP
    exact hP x' hx'
  · intro i hi
    rintro ⟨x', hx', rfl | rfl⟩
    · exact h x' i hx' (by omega) rfl
    · exact h x' (n - 1 - i) hx' (by omega) rfl

theorem flipV_get (n : Nat) (l : Layer) (hl : l.index < n) (c : Cube)
    (hc : c.length = n * n * n) (x y : Nat) (hx : x < n) (hy : y < n) :
    getPiece (flipV n l c) (mapIdx n l x y) = getPiece c (mapIdx n l x (n - 1 - y)) := by
  have hframe : ∀ (c' : Cube) (i : Nat), i < n / 2 → ∀ j',
      ¬ (∃ x', x' < n ∧ (j' = mapIdx n l x' i ∨ j' = mapIdx n l x' (n - 1 - i))) →
      getPiece (flipRowV n l i c') j' = getPiece c' j' := by
    intro c' i _ j' hP
    apply flipRowV_frame
    intro x' hx'
    push_neg at hP
    exact hP x' hx'
  have hdisj : ∀ i1 i2 j', i1 < n / 2 → i2 < n / 2 → i1 ≠ i2 →
      (∃ x', x' < n ∧ (j' = mapIdx n l x' i1 ∨ j' = mapIdx n l x' (n - 1 - i1))) →
      ¬ (∃ x', x' < n ∧ (j' = mapIdx n l x' i2 ∨ j' = mapIdx n l x' (n - 1 - i2))) := by
    rintro i1 i2 j' h1 h2 hne ⟨x1, hx1, he1⟩ ⟨x2, hx2, he2⟩
    rcases he1 with rfl | rfl <;> rcases he2 with he2 | he2
    · have := mapIdx_inj n l hl hx1 (by omega) hx2 (by omega) he2; omega
    · have := mapIdx_inj n l hl hx1 (by omega) hx2 (by omega) he2; omega
    · have := mapIdx_inj n l hl hx1 (by omega) hx2 (by omega) he2; omega
    · have := mapIdx_inj n l hl hx1 (by omega) hx2 (by omega) he2; omega
  have hlen : ∀ (c' : Cube) (i : Nat), i < n / 2 → (flipRowV n l i c').length = c'.length :=
    fun c' i _ => flipRowV_length n l i c'
  have hlocal : ∀ (c1 c2 : Cube) (i : Nat), i < n / 2 → c1.length = c.length →
      c2.length = c.length →
      (∀ j', (∃ x', x' < n ∧ (j' = mapIdx n l x' i ∨ j' = mapIdx n l x' (n - 1 - i))) →
        getPiece c1 j' = getPiece c2 j') →
      ∀ j', (∃ x', x' < n ∧ (j' = mapIdx n l x' i ∨ j' = mapIdx n l x' (n - 1 - i))) →
      getPiece (flipRowV n l i c1) j' = getPiece (flipRowV n l i c2) j' := by
    rintro c1 c2 i hi hl1 hl2 hagree j' ⟨x', hx', rfl | rfl⟩
    · rw [(flipRowV_get n l hl i (by omega) c1 (by rw [hl1, hc]) x' hx').1,
        (flipRowV_get n l hl i (by omega) c2 (by rw [hl2, hc]) x' hx').1]
      exact hagree _ ⟨x', hx', Or.inr rfl⟩
    · rw [(flipRowV_get n l hl i (by omega) c1 (by rw [hl1, hc]) x' hx').2,
        (flipRowV_get n l hl i (by omega) c2 (by rw [hl2, hc]) x' hx').2]
      exact hagree _ ⟨x', hx', Or.inl rfl⟩
  unfold flipV
  by_cases hy1 : y < n / 2
  · rw [foldRange_compute (n / 2) (fun c' y' => flipRowV n l y' c') _ c
      hframe hdisj hlen hlocal y hy1 (mapIdx n l x y) ⟨x, hx, Or.inl rfl⟩]
    exact (flipRowV_get n l hl y hy c hc x hx).1
  · by_cases hy2 : n - 1 - y < n / 2
    · have hyy : n - 1 - (n - 1 - y) = y := by omega
      rw [foldRange_compute (n / 2) (fun c' y' => flipRowV n l y' c') _ c
        hframe hdisj hlen hlocal (n - 1 - y) hy2 (mapIdx n l x y)
        ⟨x, hx, Or.inr (by rw [hyy])⟩]
      have h2 := (flipRowV_get n l hl (n - 1 - y) (by omega) c hc x hx).2
      rw [hyy] at h2
      exact h2
    · have hmid : y = n - 1 - y := by omega
      rw [foldRange_frame (n / 2) (fun c' y' => flipRowV n l y' c')
        (fun i j' => ∃ x', x' < n ∧ (j' = mapIdx n l x' i ∨ j' = mapIdx n l x' (n - 1 - i)))
        c (mapIdx n l x y) hframe ?_]
      · rw [← hmid]
      · rintro i hi ⟨x', hx', he | he⟩
        · have := mapIdx_inj n l hl hx hy hx' (by omega) he; omega
        · have := mapIdx_inj n l hl hx hy hx' (by omega) he; omega

theorem flipRowH_length (n : Nat) (l : Layer) (y : Nat) (c : Cube) :
    (flipRowH n l y c).length = c.length :=
  swapLoop_length (n / 2) (fun x => mapIdx n l x y) (fun x => mapIdx n l (n - 1 - x) y) c

theorem flipRowH_frame (n : Nat) (l : Layer) (y : Nat) (c : Cube) (j : Nat)
    (h : ∀ x, x < n → j ≠ mapIdx n l x y) :
    getPiece (flipRowH n l y c) j = getPiece c j :=
  swapLoop_frame (n / 2) (fun x => mapIdx n l x y) (fun x => mapIdx n l (n - 1 - x) y) c j
    (fun i hi => ⟨h i (by omega), h (n - 1 - i) (by omega)⟩)

theorem flipRowH_get (n : Nat) (l : Layer) (hl : l.index < n) (y : Nat) (hy : y < n)
    (c : Cube) (hc : c.length = n * n * n) (x : Nat) (hx : x < n) :
    getPiece (flipRowH n l y c) (mapIdx n l x y)
      = getPiece c (mapIdx n l (n - 1 - x) y) := by
  have hswap := swapLoop_get (n / 2) (fun x' => mapIdx n l x' y)
    (fun x' => mapIdx n l (n - 1 - x') y) c
    (fun i hi => by rw [hc]; exact mapIdx_lt n l hl i y (by omega) hy)
    (fun i hi => by rw [hc]; exact mapIdx_lt n l hl (n - 1 - i) y (by omega) hy)
    (fun i1 i2 h1 h2 hne =>
      ⟨fun he => by have := mapIdx_inj n l hl (by omega) hy (by omega) hy he; omega,
       fun he => by have := mapIdx_inj n l hl (by omega) hy (by omega) hy he; omega,
       fun he => by have := mapIdx_inj n l hl (by omega) hy (by omega) hy he; omega,
       fun he => by have := mapIdx_inj n l hl (by omega) hy (by omega) hy he; omega⟩)
  by_cases hx1 : x < n / 2
  · exact (hswap x hx1).1
  · by_cases hx2 : n - 1 - x < n / 2
    · have hxx : n - 1 - (n - 1 - x) = x := by omega
      have h2 : getPiece (flipRowH n l y c) (mapIdx n l (n - 1 - (n - 1 - x)) y)
          = getPiece c (mapIdx n l (n - 1 - x) y) := (hswap (n - 1 - x) hx2).2
      rw [hxx] at h2
      exact h2
    · have hmid : x = n - 1 - x := by omega
      have hfr : getPiece (flipRowH n l y c) (mapIdx n l x y)
          = getPiece c (mapIdx n l x y) :=
        swapLoop_frame (n / 2) (fun x' => mapIdx n l x' y)
          (fun x' => mapIdx n l (n - 1 - x') y) c (mapIdx n l x y)
          (fun i hi =>
            ⟨fun he => by have := mapIdx_inj n l hl hx hy (by omega) hy he; omega,
             fun he => by have := mapIdx_inj n l hl hx hy (by omega) hy he; omega⟩)
      rw [hfr, ← hmid]

theorem flipH_length (n : Nat) (l : Layer) (c : Cube) :
    (flipH n l c).length = c.length :=
  foldRange_length n _ c (fun c' i _ => flipRowH_length n l i c')

theorem flipH_frame (n : Nat) (l : Layer) (c : Cube) (j : Nat)
    (h : ∀ x' y', x' < n → y' < n → j ≠ mapIdx n l x' y') :
    getPiece (flipH n l c) j = getPiece c j := by
  apply foldRange_frame n _ (fun i j' => ∃ x', x' < n ∧ j' = mapIdx n l x' i) c j
  · intro c' i hi j' hP
    apply flipRowH_frame
    intro x' hx' he
    exact hP ⟨x', hx', he⟩
  · rintro i hi ⟨x', hx', rfl⟩
    exact h x' i hx' hi rfl

theorem flipH_get (n : Nat) (l : Layer) (hl : l.index < n) (c : Cube)
    (hc : c.length = n * n * n) (x y : Nat) (hx : x < n) (hy : y < n) :
    getPiece (flipH n l c) (mapIdx n l x y) = getPiece c (mapIdx n l (n - 1 - x) y) := by
  have hcomp : getPiece (flipH n l c) (mapIdx n l x y)
      = getPiece (flipRowH n l y c) (mapIdx n l x y) := by
    unfold flipH
    apply foldRange_compute n (fun c' y' => flipRowH n l y' c')
      (fun i j' => ∃ x', x' < n ∧ j' = mapIdx n l x' i) c
    · intro c' i hi j' hP
      apply flipRowH_frame
      intro x' hx' he
      exact hP ⟨x', hx', he⟩
    · rintro i1 i2 j' h1 h2 hne ⟨x1, hx1, rfl⟩ ⟨x2, hx2, he2⟩
      have := mapIdx_inj n l hl hx1 h1 hx2 h2 he2
      omega
    · exact fun c' i _ => flipRowH_length n l i c'
    · rintro c1 c2 i hi hl1 hl2 hagree j' ⟨x', hx', rfl⟩
      rw [flipRowH_get n l hl i hi c1 (by rw [hl1, hc]) x' hx',
        flipRowH_get n l hl i hi c2 (by rw [hl2, hc]) x' hx']
      exact hagree _ ⟨n - 1 - x', by omega, rfl⟩
    · exact hy
    · exact ⟨x, hx, rfl⟩
  rw [hcomp, flipRowH_get n l hl y hy c hc x hx]

theorem transposeRow_length (n : Nat) (l : Layer) (y : Nat) (c : Cube) :
    (transposeRow n l y c).length = c.length :=
  swapLoop_length (n - (y + 1)) (fun t => mapIdx n l (y + 1 + t) y)
    (fun t => mapIdx n l y (y + 1 + t)) c

theorem transposeRow_frame (n : Nat) (l : Layer) (y : Nat) (c : Cube) (j : Nat)
    (h : ∀ t, t < n - (y + 1) → j ≠ mapIdx n l (y + 1 + t) y ∧ j ≠ mapIdx n l y (y + 1 + t)) :
    getPiece (transposeRow n l y c) j = getPiece c j :=
  swapLoop_frame (n - (y + 1)) (fun t => mapIdx n l (y + 1 + t) y)
    (fun t => mapIdx n l y (y + 1 + t)) c j h

theorem transposeRow_get (n : Nat) (l : Layer) (hl : l.index < n) (y : Nat) (c : Cube)
    (hc : c.length = n * n * n) (x : Nat) (hyx : y < x) (hx : x < n) :
    getPiece (transposeRow n l y c) (mapIdx n l x y) = getPiece c (mapIdx n l y x)
    ∧ getPiece (transposeRow n l y c) (mapIdx n l y x) = getPiece c (mapIdx n l x y) := by
  have hy : y < n := by omega
  have hswap := swapLoop_get (n - (y + 1)) (fun t => mapIdx n l (y + 1 + t) y)
    (fun t => mapIdx n l y (y + 1 + t)) c
    (fun i hi => by rw [hc]; exact mapIdx_lt n l hl (y + 1 + i) y (by omega) hy)
    (fun i hi => by rw [hc]; exact mapIdx_lt n l hl y (y + 1 + i) hy (by omega))
    (fun i1 i2 h1 h2 hne =>
      ⟨fun he => by have := mapIdx_inj n l hl (by omega) hy (by omega) hy he; omega,
       fun he => by have := mapIdx_inj n l hl (by omega) hy (by omega) (by omega) he; omega,
       fun he => by have := mapIdx_inj n l hl (by omega) (by omega) (by omega) hy he; omega,
       fun he => by have := mapIdx_inj n l hl (by omega) (by omega) (by omega) (by omega) he; omega⟩)
  have hx' : x - (y + 1) < n - (y + 1) := by omega
  have h1 : getPiece (transposeRow n l y c) (mapIdx n l (y + 1 + (x - (y + 1))) y)
      = getPiece c (mapIdx n l y (y + 1 + (x - (y + 1)))) := (hswap (x - (y + 1)) hx').1
  have h2 : getPiece (transposeRow n l y c) (mapIdx n l y (y + 1 + (x - (y + 1))))
      = getPiece c (mapIdx n l (y + 1 + (x - (y + 1))) y) := (hswap (x - (y + 1)) hx').2
  rw [show y + 1 + (x - (y + 1)) = x from by omega] at h1 h2
  exact ⟨h1, h2⟩

theorem transposeBlock_length (n : Nat) (l : Layer) (c : Cube) :
    (transposeBlock n l c).length = c.length :=
  foldRange_length (n - 1) _ c (fun c' i _ => transposeRow_length n l i c')

theorem transposeBlock_frame (n : Nat) (l : Layer) (c : Cube) (j : Nat)
    (h : ∀ x' y', x' < n → y' < n → j ≠ mapIdx n l x' y') :
    getPiece (transposeBlock n l c) j = getPiece c j := by
  apply foldRange_frame (n - 1) _
    (fun i j' => ∃ t, t < n - (i + 1)
      ∧ (j' = mapIdx n l (i + 1 + t) i ∨ j' = mapIdx n l i (i + 1 + t))) c j
  · intro c' i hi j' hP
    apply transposeRow_frame
    intro t ht
    push_neg at hP
    exact hP t ht
  · rintro i hi ⟨t, ht, rfl | rfl⟩
    · exact h (i + 1 + t) i (by omega) (by omega) rfl
    · exact h i (i + 1 + t) (by omega) (by omega) rfl

theorem transposeBlock_get (n : Nat) (l : Layer) (hl : l.index < n) (c : Cube)
    (hc : c.length = n * n * n) (x y : Nat) (hx : x < n) (hy : y < n) :
    getPiece (transposeBlock n l c) (mapIdx n l x y) = getPiece c (mapIdx n l y x) := by
  have hframe : ∀ (c' : Cube) (i : Nat), i < n - 1 → ∀ j',
      ¬ (∃ t, t < n - (i + 1)
        ∧ (j' = mapIdx n l (i + 1 + t) i ∨ j' = mapIdx n l i (i + 1 + t))) →
      getPiece (transposeRow n l i c') j' = getPiece c' j' := by
    intro c' i _ j' hP
    apply transposeRow_frame
    intro t ht
    push_neg at hP
    exact hP t ht
  have hdisj : ∀ i1 i2 j', i1 < n - 1 → i2 < n - 1 → i1 ≠ i2 →
      (∃ t, t < n - (i1 + 1)
        ∧ (j' = mapIdx n l (i1 + 1 + t) i1 ∨ j' = mapIdx n l i1 (i1 + 1 + t))) →
      ¬ (∃ t, t < n - (i2 + 1)
        ∧ (j' = mapIdx n l (i2 + 1 + t) i2 ∨ j' = mapIdx n l i2 (i2 + 1 + t))) := by
    rintro i1 i2 j' h1 h2 hne ⟨t1, ht1, he1⟩ ⟨t2, ht2, he2⟩
    rcases he1 with rfl | rfl <;> rcases he2 with he2 | he2 <;>
      [skip; skip; skip; skip] <;>
      · have := mapIdx_inj n l hl (by omega) (by omega) (by omega) (by omega) he2
        omega
  have hlen : ∀ (c' : Cube) (i : Nat), i < n - 1 →
      (transposeRow n l i c').length = c'.length :=
    fun c' i _ => transposeRow_length n l i c'
  have hlocal : ∀ (c1 c2 : Cube) (i : Nat), i < n - 1 → c1.length = c.length →
      c2.length = c.length →
      (∀ j', (∃ t, t < n - (i + 1)
          ∧ (j' = mapIdx n l (i + 1 + t) i ∨ j' = mapIdx n l i (i + 1 + t))) →
        getPiece c1 j' = getPiece c2 j') →
      ∀ j', (∃ t, t < n - (i + 1)
          ∧ (j' = mapIdx n l (i + 1 + t) i ∨ j' = mapIdx n l i (i + 1 + t))) →
      getPiece (transposeRow n l i c1) j' = getPiece (transposeRow n l i c2) j' := by
    rintro c1 c2 i hi hl1 hl2 hagree j' ⟨t, ht, rfl | rfl⟩
    · rw [(transposeRow_get n l hl i c1 (by rw [hl1, hc]) (i + 1 + t) (by omega) (by omega)).1,
        (transposeRow_get n l hl i c2 (by rw [hl2, hc]) (i + 1 + t) (by omega) (by omega)).1]
      exact hagree _ ⟨t, ht, Or.inr rfl⟩
    · rw [(transposeRow_get n l hl i c1 (by rw [hl1, hc]) (i + 1 + t) (by omega) (by omega)).2,
        (transposeRow_get n l hl i c2 (by rw [hl2, hc]) (i + 1 + t) (by omega) (by omega)).2]
      exact hagree _ ⟨t, ht, Or.inl rfl⟩
  rcases Nat.lt_trichotomy y x with hyx | rfl | hxy
  · have hcomp : getPiece (transposeBlock n l c) (mapIdx n l x y)
        = getPiece (transposeRow n l y c) (mapIdx n l x y) := by
      unfold transposeBlock
      exact foldRange_compute (n - 1) (fun c' y' => transposeRow n l y' c') _ c
        hframe hdisj hlen hlocal y (by omega) (mapIdx n l x y)
        ⟨x - (y + 1), by omega, Or.inl (by rw [show y + 1 + (x - (y + 1)) = x from by omega])⟩
    rw [hcomp, (transposeRow_get n l hl y c hc x hyx hx).1]
  · have hfr : ∀ i, i < n - 1 →
        ¬ (∃ t, t < n - (i + 1)
          ∧ (mapIdx n l y y = mapIdx n l (i + 1 + t) i ∨ mapIdx n l y y = mapIdx n l i (i + 1 + t))) := by
      rintro i hi ⟨t, ht, he | he⟩
      · have := mapIdx_inj n l hl hy hy (by omega) (by omega) he; omega
      · have := mapIdx_inj n l hl hy hy (by omega) (by omega) he; omega
    have hcomp : getPiece (transposeBlock n l c) (mapIdx n l y y)
        = getPiece c (mapIdx n l y y) := by
      unfold transposeBlock
      exact foldRange_frame (n - 1) (fun c' y' => transposeRow n l y' c') _ c
        (mapIdx n l y y) hframe hfr
    rw [hcomp]
  · have hcomp : getPiece (transposeBlock n l c) (mapIdx n l x y)
        = getPiece (transposeRow n l x c) (mapIdx n l x y) := by
      unfold transposeBlock
      exact foldRange_compute (n - 1) (fun c' y' => transposeRow n l y' c') _ c
        hframe hdisj hlen hlocal x (by omega) (mapIdx n l x y)
        ⟨y - (x + 1), by omega, Or.inr (by rw [show x + 1 + (y - (x + 1)) = y from by omega])⟩
    rw [hcomp, (transposeRow_get n l hl x c hc y hxy hy).2]

theorem rotateRow_length (n : Nat) (l : Layer) (dir : Bool) (y : Nat) (c : Cube) :
    (rotateRow n l dir y c).length = c.length :=
  setLoop_length n (fun x => mapIdx n l x y) (fun p => piece.rotate p l.axis dir) c

theorem rotateRow_frame (n : Nat) (l : Layer) (dir : Bool) (y : Nat) (c : Cube) (j : Nat)
    (h : ∀ x, x < n → j ≠ mapIdx n l x y) :
    getPiece (rotateRow n l dir y c) j = getPiece c j :=
  setLoop_frame n (fun x => mapIdx n l x y) (fun p => piece.rotate p l.axis dir) c j h

theorem rotateRow_get (n : Nat) (l : Layer) (hl : l.index < n) (dir : Bool) (y : Nat)
    (hy : y < n) (c : Cube) (hc : c.length = n * n * n) (x : Nat) (hx : x < n) :
    getPiece (rotateRow n l dir y c) (mapIdx n l x y)
      = piece.rotate (getPiece c (mapIdx n l x y)) l.axis dir :=
  setLoop_get n (fun x' => mapIdx n l x' y) (fun p => piece.rotate p l.axis dir) c
    (fun i hi => by rw [hc]; exact mapIdx_lt n l hl i y hi hy)
    (fun i1 i2 h1 h2 hne he => hne (mapIdx_inj n l hl h1 hy h2 hy he).1)
    x hx

theorem rotatePieces_length (n : Nat) (l : Layer) (dir : Bool) (c : Cube) :
    (rotatePieces n l dir c).length = c.length :=
  foldRange_length n _ c (fun c' i _ => rotateRow_length n l dir i c')

theorem rotatePieces_frame (n : Nat) (l : Layer) (dir : Bool) (c : Cube) (j : Nat)
    (h : ∀ x' y', x' < n → y' < n → j ≠ mapIdx n l x' y') :
    getPiece (rotatePieces n l dir c) j = getPiece c j := by
  apply foldRange_frame n _ (fun i j' => ∃ x', x' < n ∧ j' = mapIdx n l x' i) c j
  · intro c' i hi j' hP
    apply rotateRow_frame
    intro x' hx' he
    exact hP ⟨x', hx', he⟩
  · rintro i hi ⟨x', hx', rfl⟩
    exact h x' i hx' hi rfl

theorem rotatePieces_get (n : Nat) (l : Layer) (hl : l.index < n) (dir : Bool) (c : Cube)
    (hc : c.length = n * n * n) (x y : Nat) (hx : x < n) (hy : y < n) :
    getPiece (rotatePieces n l dir c) (mapIdx n l x y)
      = piece.rotate (getPiece c (mapIdx n l x y)) l.axis dir := by
  have hcomp : getPiece (rotatePieces n l dir c) (mapIdx n l x y)
      = getPiece (rotateRow n l dir y c) (mapIdx n l x y) := by
    unfold rotatePieces
    apply foldRange_compute n (fun c' y' => rotateRow n l dir y' c')
      (fun i j' => ∃ x', x' < n ∧ j' = mapIdx n l x' i) c
    · intro c' i hi j' hP
      apply rotateRow_frame
      intro x' hx' he
      exact hP ⟨x', hx', he⟩
    · rintro i1 i2 j' h1 h2 hne ⟨x1, hx1, rfl⟩ ⟨x2, hx2, he2⟩
      have := mapIdx_inj n l hl hx1 h1 hx2 h2 he2
      omega
    · exact fun c' i _ => rotateRow_length n l dir i c'
    · rintro c1 c2 i hi hl1 hl2 hagree j' ⟨x', hx', rfl⟩
      rw [rotateRow_get n l hl dir i hi c1 (by rw [hl1, hc]) x' hx',
        rotateRow_get n l hl dir i hi c2 (by rw [hl2, hc]) x' hx',
        hagree _ ⟨x', hx', rfl⟩]
    · exact hy
    · exact ⟨x, hx, rfl⟩
  rw [hcomp, rotateRow_get n l hl dir y hy c hc x hx]

theorem rotate_length (n : Nat) (c : Cube) (l : Layer) (cw : Bool) :
    (rotate n c l cw).length = c.length := by
  cases cw
  · show (rotatePieces n l _ (transposeBlock n l (flipH n l c))).length = c.length
    rw [rotatePieces_length, transposeBlock_length, flipH_length]
  · show (rotatePieces n l _ (transposeBlock n l (flipV n l c))).length = c.length
    rw [rotatePieces_length, transposeBlock_length, flipV_length]

theorem rotate_frame (n : Nat) (c : Cube) (l : Layer) (cw : Bool) (j : Nat)
    (h : ∀ x' y', x' < n → y' < n → j ≠ mapIdx n l x' y') :
    getPiece (rotate n c l cw) j = getPiece c j := by
  cases cw
  · show getPiece (rotatePieces n l _ (transposeBlock n l (flipH n l c))) j = getPiece c j
    rw [rotatePieces_frame n l _ _ j h, transposeBlock_frame n l _ j h, flipH_frame n l c j h]
  · show getPiece (rotatePieces n l _ (transposeBlock n l (flipV n l c))) j = getPiece c j
    rw [rotatePieces_frame n l _ _ j h, transposeBlock_frame n l _ j h, flipV_frame n l c j h]

/-- Net effect of a clockwise `cube::rotate` on the layer: the piece that
ends up at raster cell (x, y) is the piece that was at (y, n-1-x),
reoriented about the layer's axis (in the requested sense on near-side
layers, in the opposite sense on far-side layers). -/
theorem rotate_get_true (n : Nat) (l : Layer) (hl : l.index < n) (c : Cube)
    (hc : c.length = n * n * n) (x y : Nat) (hx : x < n) (hy : y < n) :
    getPiece (rotate n c l true) (mapIdx n l x y)
      = piece.rotate (getPiece c (mapIdx n l y (n - 1 - x))) l.axis
          (if clockwisePiece n l then true else false) := by
  have h1 : (flipV n l c).length = n * n * n := by rw [flipV_length, hc]
  have h2 : (transposeBlock n l (flipV n l c)).length = n * n * n := by
    rw [transposeBlock_length, h1]
  show getPiece (rotatePieces n l _ (transposeBlock n l (flipV n l c))) (mapIdx n l x y) = _
  rw [rotatePieces_get n l hl _ _ h2 x y hx hy,
    transposeBlock_get n l hl _ h1 x y hx hy,
    flipV_get n l hl c hc y x hy hx]
  cases hcp : clockwisePiece n l <;> rfl

/-- Net effect of a counter-clockwise `cube::rotate` on the layer: the
piece that ends up at raster cell (x, y) comes from (n-1-y, x). -/
theorem rotate_get_false (n : Nat) (l : Layer) (hl : l.index < n) (c : Cube)
    (hc : c.length = n * n * n) (x y : Nat) (hx : x < n) (hy : y < n) :
    getPiece (rotate n c l false) (mapIdx n l x y)
      = piece.rotate (getPiece c (mapIdx n l (n - 1 - y) x)) l.axis
          (if clockwisePiece n l then false else true) := by
  have h1 : (flipH n l c).length = n * n * n := by rw [flipH_length, hc]
  have h2 : (transposeBlock n l (flipH n l c)).length = n * n * n := by
    rw [transposeBlock_length, h1]
  show getPiece (rotatePieces n l _ (transposeBlock n l (flipH n l c))) (mapIdx n l x y) = _
  rw [rotatePieces_get n l hl _ _ h2 x y hx hy,
    transposeBlock_get n l hl _ h1 x y hx hy,
    flipH_get n l hl c hc y x hy hx]
  cases hcp : clockwisePiece n l <;> rfl

end cube

theorem getPiece_eq_getElem (cs : Cube) (i : Nat) (h : i < cs.length) :
    getPiece cs i = cs[i] :=
  List.getD_eq_getElem cs piece.default_piece h

theorem cube_ext (c1 c2 : Cube) (hlen : c1.length = c2.length)
    (h : ∀ i, getPiece c1 i = getPiece c2 i) : c1 = c2 := by
  apply List.ext_getElem hlen
  intro i h1 h2
  rw [← getPiece_eq_getElem c1 i h1, ← getPiece_eq_getElem c2 i h2]
  exact h i

/-- Total number of defined color slots over the first `cubeSize³` cells
of the cube (i.e. over the whole cube). -/
def cubeDefinedCount (cubeSize : Nat) (c : Cube) : Nat :=
  ∑ i ∈ Finset.range (cubeSize * cubeSize * cubeSize), piece.definedCount (getPiece c i)

namespace cube

/-- The set of flat indices addressed by a layer's mapping. -/
def layerCells (cubeSize : Nat) (l : Layer) : Finset Nat :=
  (Finset.range cubeSize ×ˢ Finset.range cubeSize).image
    (fun p : Nat × Nat => mapIdx cubeSize l p.1 p.2)

theorem layerCells_subset (n : Nat) (l : Layer) (hl : l.index < n) :
    layerCells n l ⊆ Finset.range (n * n * n) := by
  intro j hj
  simp only [layerCells, Finset.mem_image, Finset.mem_product, Finset.mem_range] at hj
  obtain ⟨⟨x, y⟩, ⟨hx, hy⟩, rfl⟩ := hj
  simp only [Finset.mem_range]
  exact mapIdx_lt n l hl x y hx hy

theorem mem_layerCells (n : Nat) (l : Layer) (j : Nat) :
    j ∈ layerCells n l ↔ ∃ x y, x < n ∧ y < n ∧ j = mapIdx n l x y := by
  simp only [layerCells, Finset.mem_image, Finset.mem_product, Finset.mem_range]
  constructor
  · rintro ⟨⟨x, y⟩, ⟨hx, hy⟩, rfl⟩
    exact ⟨x, y, hx, hy, rfl⟩
  · rintro ⟨x, y, hx, hy, rfl⟩
    exact ⟨⟨x, y⟩, ⟨hx, hy⟩, rfl⟩

/-- One rotation conserves the total defined-slot count. -/
theorem cubeDefinedCount_rotate (n : Nat) (l : Layer) (cw : Bool) (c : Cube)
    (hl : l.index < n) (hc : c.length = n * n * n) :
    cubeDefinedCount n (rotate n c l cw) = cubeDefinedCount n c := by
  have hsplit : ∀ c' : Cube,
      cubeDefinedCount n c'
        = ∑ j ∈ Finset.range (n * n * n) \ layerCells n l, piece.definedCount (getPiece c' j)
          + ∑ j ∈ layerCells n l, piece.definedCount (getPiece c' j) := by
    intro c'
    rw [cubeDefinedCount, ← Finset.sum_sdiff (layerCells_subset n l hl)]
  rw [hsplit (rotate n c l cw), hsplit c]
  have hout : ∀ j ∈ Finset.range (n * n * n) \ layerCells n l,
      piece.definedCount (getPiece (rotate n c l cw) j)
        = piece.definedCount (getPiece c j) := by
    intro j hj
    rw [Finset.mem_sdiff] at hj
    have hnot := hj.2
    rw [mem_layerCells] at hnot
    push_neg at hnot
    rw [rotate_frame n c l cw j hnot]
  have hin : ∑ j ∈ layerCells n l, piece.definedCount (getPiece (rotate n c l cw) j)
      = ∑ j ∈ layerCells n l, piece.definedCount (getPiece c j) := by
    rw [layerCells, Finset.sum_image ?hinj, Finset.sum_image ?hinj]
    case hinj =>
      rintro ⟨x1, y1⟩ h1 ⟨x2, y2⟩ h2 he
      simp only [Finset.mem_product, Finset.mem_range] at h1 h2
      have := mapIdx_inj n l hl h1.1 h1.2 h2.1 h2.2 he
      simp only [Prod.mk.injEq]
      omega
    cases cw
    · apply Finset.sum_nbij' (fun p : Nat × Nat => (n - 1 - p.2, p.1))
        (fun p : Nat × Nat => (p.2, n - 1 - p.1))
      · rintro ⟨x, y⟩ hp
        simp only [Finset.mem_product, Finset.mem_range] at hp ⊢
        omega
      · rintro ⟨x, y⟩ hp
        simp only [Finset.mem_product, Finset.mem_range] at hp ⊢
        omega
      · rintro ⟨x, y⟩ hp
        simp only [Finset.mem_product, Finset.mem_range] at hp
        show ((x, n - 1 - (n - 1 - y)) : Nat × Nat) = (x, y)
        rw [show n - 1 - (n - 1 - y) = y from by omega]
      · rintro ⟨x, y⟩ hp
        simp only [Finset.mem_product, Finset.mem_range] at hp
        show ((n - 1 - (n - 1 - x), y) : Nat × Nat) = (x, y)
        rw [show n - 1 - (n - 1 - x) = x from by omega]
      · rintro ⟨x, y⟩ hp
        simp only [Finset.mem_product, Finset.mem_range] at hp
        dsimp only
        rw [rotate_get_false n l hl c hc x y hp.1 hp.2, piece.definedCount_rotate]
    · apply Finset.sum_nbij' (fun p : Nat × Nat => (p.2, n - 1 - p.1))
        (fun p : Nat × Nat => (n - 1 - p.2, p.1))
      · rintro ⟨x, y⟩ hp
        simp only [Finset.mem_product, Finset.mem_range] at hp ⊢
        omega
      · rintro ⟨x, y⟩ hp
        simp only [Finset.mem_product, Finset.mem_range] at hp ⊢
        omega
      · rintro ⟨x, y⟩ hp
        simp only [Finset.mem_product, Finset.mem_range] at hp
        show ((n - 1 - (n - 1 - x), y) : Nat × Nat) = (x, y)
        rw [show n - 1 - (n - 1 - x) = x from by omega]
      · rintro ⟨x, y⟩ hp
        simp only [Finset.mem_product, Finset.mem_range] at hp
        show ((x, n - 1 - (n - 1 - y)) : Nat × Nat) = (x, y)
        rw [show n - 1 - (n - 1 - y) = y from by omega]
      · rintro ⟨x, y⟩ hp
        simp only [Finset.mem_product, Finset.mem_range] at hp
        dsimp only
        rw [rotate_get_true n l hl c hc x y hp.1 hp.2, piece.definedCount_rotate]
  rw [Finset.sum_congr rfl hout, hin]

end cube

namespace cube

/-- `rowIterator` of `cube::default_cube`: flat index of the first cell of
row (y, z). -/
def rowIterator (cubeSize y z : Nat) : Nat :=
  index cubeSize 0 y z

/-- The Left/Right assignments at the start of `createRow`. -/
def createRowLR (cubeSize : Nat) (c : Cube) (rowBegin : Nat) : Cube :=
  setPiece (setPiece c rowBegin (piece.default_face Face.Left))
    (rowBegin + cubeSize - 1) (piece.default_face Face.Right)

/-- The `hasFrontOrBack` block of `createRow`: adds the front-or-back color
to every cell of the row. -/
def createRowFB (cubeSize : Nat) (c : Cube) (rowBegin : Nat) (frontOrBack : Face) : Cube :=
  let ca := setPiece c rowBegin
    (piece.add_default_face (getPiece c rowBegin) frontOrBack)
  let cb := foldRange (cubeSize - 2) (fun c' i =>
    setPiece c' (rowBegin + 1 + i)
      (piece.add_default_face (getPiece c' (rowBegin + 1 + i)) frontOrBack)) ca
  setPiece cb (rowBegin + cubeSize - 1)
    (piece.add_default_face (getPiece cb (rowBegin + cubeSize - 1)) frontOrBack)

/-- The `hasTopOrBottom` block of `createRow`: adds the top-or-bottom color
to every cell of the row. -/
def createRowTB (cubeSize : Nat) (c : Cube) (rowBegin : Nat) (topOrBottom : Face) : Cube :=
  foldRange cubeSize (fun c' i =>
    setPiece c' (rowBegin + i)
      (piece.add_default_face (getPiece c' (rowBegin + i)) topOrBottom)) c

/-- `createRow` of `cube::default_cube`. -/
def createRow (cubeSize : Nat) (c : Cube) (rowBegin : Nat) (hasTopOrBottom : Bool)
    (topOrBottom : Face) (hasFrontOrBack : Bool) (frontOrBack : Face) : Cube :=
  let c2 := createRowLR cubeSize c rowBegin
  let c3 := if hasFrontOrBack then createRowFB cubeSize c2 rowBegin frontOrBack else c2
  if hasTopOrBottom then createRowTB cubeSize c3 rowBegin topOrBottom else c3

/-- `createLayer` of `cube::default_cube`: first row gets Back, last row
gets Front, every row gets Left/Right and possibly the top-or-bottom color. -/
def createLayer (cubeSize : Nat) (c : Cube) (z : Nat) (hasTopOrBottom : Bool)
    (topOrBottom : Face) : Cube :=
  let c1 := createRow cubeSize c (rowIterator cubeSize 0 z) hasTopOrBottom topOrBottom
    true Face.Back
  let c2 := foldRange (cubeSize - 2) (fun c' t =>
    createRow cubeSize c' (rowIterator cubeSize (1 + t) z) hasTopOrBottom topOrBottom
      false Face.Back) c1
  createRow cubeSize c2 (rowIterator cubeSize (cubeSize - 1) z) hasTopOrBottom topOrBottom
    true Face.Front

/-- `cube::default_cube`: an all-`None` cube of `cubeSize³` pieces, then
layer z = 0 gets Top, the middle layers get no top-or-bottom color, and
layer z = cubeSize-1 gets Bottom. -/
def default_cube (cubeSize : Nat) : Cube :=
  let c0 : Cube := List.replicate (cubeSize * cubeSize * cubeSize) piece.default_piece
  let c1 := createLayer cubeSize c0 0 true Face.Top
  let c2 := foldRange (cubeSize - 2) (fun c' t =>
    createLayer cubeSize c' (1 + t) false Face.Top) c1
  createLayer cubeSize c2 (cubeSize - 1) true Face.Bottom

/-- `validateSide` of `cube::validate`: every cell of the face's raster
shows the face's canonical color. -/
def validateSide (cubeSize : Nat) (c : Cube) (plane2Cube : Nat → Nat → Coord)
    (face : Face) : Bool :=
  (List.range cubeSize).all fun y => (List.range cubeSize).all fun x =>
    decide (Piece.get (getPiece c (indexC cubeSize (plane2Cube x y))) face
      = default_color face)

/-- `cube::validate`. -/
def validate (cubeSize : Nat) (c : Cube) : Bool :=
  validateSide cubeSize c (planeToCube cubeSize (layer Face.Top cubeSize)) Face.Top
    && validateSide cubeSize c (planeToCube cubeSize (layer Face.Left cubeSize)) Face.Left
    && validateSide cubeSize c (planeToCube cubeSize (layer Face.Front cubeSize)) Face.Front
    && validateSide cubeSize c (planeToCube cubeSize (layer Face.Right cubeSize)) Face.Right
    && validateSide cubeSize c (planeToCube cubeSize (layer Face.Back cubeSize)) Face.Back
    && validateSide cubeSize c (planeToCube cubeSize (layer Face.Bottom cubeSize)) Face.Bottom

end cube

namespace cube

theorem createRowLR_length (n : Nat) (c : Cube) (b : Nat) :
    (createRowLR n c b).length = c.length := by
  simp only [createRowLR, length_setPiece]

theorem createRowLR_frame (n : Nat) (hn : 2 ≤ n) (c : Cube) (b : Nat) (j : Nat)
    (h : ∀ i, i < n → j ≠ b + i) :
    getPiece (createRowLR n c b) j = getPiece c j := by
  have h0 : j ≠ b := by have := h 0 (by omega); omega
  have h1 : j ≠ b + n - 1 := by have := h (n - 1) (by omega); omega
  rw [createRowLR, getPiece_setPiece_other _ _ _ _ h1, getPiece_setPiece_other _ _ _ _ h0]

theorem createRowLR_get (n : Nat) (hn : 2 ≤ n) (c : Cube) (b : Nat)
    (hfit : b + n ≤ c.length) (i : Nat) (hi : i < n) :
    getPiece (createRowLR n c b) (b + i)
      = if i = 0 then piece.default_face Face.Left
        else if i = n - 1 then piece.default_face Face.Right
        else getPiece c (b + i) := by
  by_cases h0 : i = 0
  · subst h0
    rw [if_pos rfl, createRowLR, getPiece_setPiece_other _ _ _ _ (by omega : b + 0 ≠ b + n - 1),
      show b + 0 = b from by omega, getPiece_setPiece_self _ _ _ (by omega)]
  · by_cases h1 : i = n - 1
    · subst h1
      rw [if_neg h0, if_pos rfl, createRowLR, show b + (n - 1) = b + n - 1 from by omega,
        getPiece_setPiece_self]
      rw [length_setPiece]; omega
    · rw [if_neg h0, if_neg h1, createRowLR,
        getPiece_setPiece_other _ _ _ _ (by omega : b + i ≠ b + n - 1),
        getPiece_setPiece_other _ _ _ _ (by omega : b + i ≠ b)]

theorem createRowTB_length (n : Nat) (c : Cube) (b : Nat) (tb : Face) :
    (createRowTB n c b tb).length = c.length :=
  setLoop_length n (fun i => b + i) (fun p => piece.add_default_face p tb) c

theorem createRowTB_frame (n : Nat) (c : Cube) (b : Nat) (tb : Face) (j : Nat)
    (h : ∀ i, i < n → j ≠ b + i) :
    getPiece (createRowTB n c b tb) j = getPiece c j :=
  setLoop_frame n (fun i => b + i) (fun p => piece.add_default_face p tb) c j h

theorem createRowTB_get (n : Nat) (c : Cube) (b : Nat) (tb : Face)
    (hfit : b + n ≤ c.length) (i : Nat) (hi : i < n) :
    getPiece (createRowTB n c b tb) (b + i)
      = piece.add_default_face (getPiece c (b + i)) tb :=
  setLoop_get n (fun i' => b + i') (fun p => piece.add_default_face p tb) c
    (fun i' hi' => by dsimp only; omega)
    (fun i1 i2 _ _ hne he => by dsimp only at he; omega)
    i hi

theorem createRowFB_length (n : Nat) (c : Cube) (b : Nat) (fb : Face) :
    (createRowFB n c b fb).length = c.length := by
  simp only [createRowFB, length_setPiece]
  rw [foldRange_length _ _ _ (fun c' i _ => length_setPiece _ _ _), length_setPiece]

theorem createRowFB_frame (n : Nat) (hn : 2 ≤ n) (c : Cube) (b : Nat) (fb : Face) (j : Nat)
    (h : ∀ i, i < n → j ≠ b + i) :
    getPiece (createRowFB n c b fb) j = getPiece c j := by
  have h0 : j ≠ b := by have := h 0 (by omega); omega
  have hlast : j ≠ b + n - 1 := by have := h (n - 1) (by omega); omega
  have hmid : getPiece (foldRange (n - 2) (fun c' i =>
      setPiece c' (b + 1 + i) (piece.add_default_face (getPiece c' (b + 1 + i)) fb))
      (setPiece c b (piece.add_default_face (getPiece c b) fb))) j
      = getPiece (setPiece c b (piece.add_default_face (getPiece c b) fb)) j :=
    setLoop_frame (n - 2) (fun i => b + 1 + i) (fun p => piece.add_default_face p fb) _ j
      (fun i hi => by dsimp only; have := h (1 + i) (by omega); omega)
  simp only [createRowFB]
  rw [getPiece_setPiece_other _ _ _ _ hlast, hmid, getPiece_setPiece_other _ _ _ _ h0]

theorem createRowFB_get (n : Nat) (hn : 2 ≤ n) (c : Cube) (b : Nat) (fb : Face)
    (hfit : b + n ≤ c.length) (i : Nat) (hi : i < n) :
    getPiece (createRowFB n c b fb) (b + i)
      = piece.add_default_face (getPiece c (b + i)) fb := by
  have hlen1 : (setPiece c b (piece.add_default_face (getPiece c b) fb)).length
      = c.length := length_setPiece c b _
  have hlenmid : (foldRange (n - 2) (fun c' i' =>
      setPiece c' (b + 1 + i') (piece.add_default_face (getPiece c' (b + 1 + i')) fb))
      (setPiece c b (piece.add_default_face (getPiece c b) fb))).length = c.length := by
    rw [foldRange_length _ _ _ (fun c' i' _ => length_setPiece _ _ _), hlen1]
  simp only [createRowFB]
  by_cases h0 : i = 0
  · subst h0
    have hmid : getPiece (foldRange (n - 2) (fun c' i' =>
        setPiece c' (b + 1 + i') (piece.add_default_face (getPiece c' (b + 1 + i')) fb))
        (setPiece c b (piece.add_default_face (getPiece c b) fb))) (b + 0)
        = getPiece (setPiece c b (piece.add_default_face (getPiece c b) fb)) (b + 0) :=
      setLoop_frame (n - 2) (fun i' => b + 1 + i') (fun p => piece.add_default_face p fb) _
        (b + 0) (fun i' hi' => by dsimp only; omega)
    have hb : b < c.length := by omega
    rw [getPiece_setPiece_other _ _ _ _ (by omega : b + 0 ≠ b + n - 1), hmid,
      show b + 0 = b from by omega, getPiece_setPiece_self c b _ hb]
  · by_cases h1 : i = n - 1
    · subst h1
      have hmid : getPiece (foldRange (n - 2) (fun c' i' =>
          setPiece c' (b + 1 + i') (piece.add_default_face (getPiece c' (b + 1 + i')) fb))
          (setPiece c b (piece.add_default_face (getPiece c b) fb))) (b + n - 1)
          = getPiece (setPiece c b (piece.add_default_face (getPiece c b) fb)) (b + n - 1) :=
        setLoop_frame (n - 2) (fun i' => b + 1 + i') (fun p => piece.add_default_face p fb) _
          (b + n - 1) (fun i' hi' => by dsimp only; omega)
      have hbnd : b + n - 1 < (foldRange (n - 2) (fun c' i' =>
          setPiece c' (b + 1 + i') (piece.add_default_face (getPiece c' (b + 1 + i')) fb))
          (setPiece c b (piece.add_default_face (getPiece c b) fb))).length := by
        rw [hlenmid]; omega
      rw [show b + (n - 1) = b + n - 1 from by omega,
        getPiece_setPiece_self _ _ _ hbnd, hmid,
        getPiece_setPiece_other _ _ _ _ (by omega : b + n - 1 ≠ b)]
    · have hA : getPiece (foldRange (n - 2) (fun c' i' =>
          setPiece c' (b + 1 + i') (piece.add_default_face (getPiece c' (b + 1 + i')) fb))
          (setPiece c b (piece.add_default_face (getPiece c b) fb))) (b + 1 + (i - 1))
          = piece.add_default_face
              (getPiece (setPiece c b (piece.add_default_face (getPiece c b) fb))
                (b + 1 + (i - 1))) fb :=
        setLoop_get (n - 2) (fun i' => b + 1 + i') (fun p => piece.add_default_face p fb) _
          (fun i' hi' => by dsimp only; rw [hlen1]; omega)
          (fun i1 i2 _ _ hne he => by dsimp only at he; omega)
          (i - 1) (by omega)
      rw [show b + 1 + (i - 1) = b + i from by omega] at hA
      rw [getPiece_setPiece_other _ _ _ _ (by omega : b + i ≠ b + n - 1), hA,
        getPiece_setPiece_other _ _ _ _ (by omega : b + i ≠ b)]

end cube

namespace cube

/-- Final value of cell `rowBegin + i` after `createRow`, in terms of the
cube state `c` before the row was created. -/
def rowPieceAt (cubeSize : Nat) (c : Cube) (rowBegin : Nat) (hasTopOrBottom : Bool)
    (topOrBottom : Face) (hasFrontOrBack : Bool) (frontOrBack : Face) (i : Nat) : Piece :=
  let p0 := if i = 0 then piece.default_face Face.Left
    else if i = cubeSize - 1 then piece.default_face Face.Right
    else getPiece c (rowBegin + i)
  let p1 := if hasFrontOrBack then piece.add_default_face p0 frontOrBack else p0
  if hasTopOrBottom then piece.add_default_face p1 topOrBottom else p1

theorem rowPieceAt_congr (n : Nat) (c1 c2 : Cube) (b : Nat) (hTBb : Bool) (tb : Face)
    (hFBb : Bool) (fb : Face) (i : Nat)
    (h : getPiece c1 (b + i) = getPiece c2 (b + i)) :
    rowPieceAt n c1 b hTBb tb hFBb fb i = rowPieceAt n c2 b hTBb tb hFBb fb i := by
  simp only [rowPieceAt, h]

theorem rowPieceAt_fb_irrelevant (n : Nat) (c : Cube) (b : Nat) (hTBb : Bool) (tb : Face)
    (fb fb' : Face) (i : Nat) :
    rowPieceAt n c b hTBb tb false fb i = rowPieceAt n c b hTBb tb false fb' i := by
  simp only [rowPieceAt, Bool.false_eq_true, if_false]

theorem createRow_length (n : Nat) (c : Cube) (b : Nat) (hTBb : Bool) (tb : Face)
    (hFBb : Bool) (fb : Face) :
    (createRow n c b hTBb tb hFBb fb).length = c.length := by
  simp only [createRow]
  cases hTBb <;> cases hFBb <;>
    simp only [Bool.false_eq_true, if_false, if_true]
  · rw [createRowLR_length]
  · rw [createRowFB_length, createRowLR_length]
  · rw [createRowTB_length, createRowLR_length]
  · rw [createRowTB_length, createRowFB_length, createRowLR_length]

theorem createRow_frame (n : Nat) (hn : 2 ≤ n) (c : Cube) (b : Nat) (hTBb : Bool) (tb : Face)
    (hFBb : Bool) (fb : Face) (j : Nat) (h : ∀ i, i < n → j ≠ b + i) :
    getPiece (createRow n c b hTBb tb hFBb fb) j = getPiece c j := by
  simp only [createRow]
  cases hTBb <;> cases hFBb <;>
    simp only [Bool.false_eq_true, if_false, if_true]
  · rw [createRowLR_frame n hn c b j h]
  · rw [createRowFB_frame n hn _ b fb j h, createRowLR_frame n hn c b j h]
  · rw [createRowTB_frame n _ b tb j h, createRowLR_frame n hn c b j h]
  · rw [createRowTB_frame n _ b tb j h, createRowFB_frame n hn _ b fb j h,
      createRowLR_frame n hn c b j h]

theorem createRow_get (n : Nat) (hn : 2 ≤ n) (c : Cube) (b : Nat)
    (hfit : b + n ≤ c.length) (hTBb : Bool) (tb : Face) (hFBb : Bool) (fb : Face)
    (i : Nat) (hi : i < n) :
    getPiece (createRow n c b hTBb tb hFBb fb) (b + i)
      = rowPieceAt n c b hTBb tb hFBb fb i := by
  have hlenLR : (createRowLR n c b).length = c.length := createRowLR_length n c b
  have hlenFB : (createRowFB n (createRowLR n c b) b fb).length = c.length := by
    rw [createRowFB_length, hlenLR]
  simp only [createRow, rowPieceAt]
  cases hTBb <;> cases hFBb <;>
    simp only [Bool.false_eq_true, if_false, if_true]
  · rw [createRowLR_get n hn c b hfit i hi]
  · rw [createRowFB_get n hn _ b fb (by omega) i hi, createRowLR_get n hn c b hfit i hi]
  · rw [createRowTB_get n _ b tb (by omega) i hi, createRowLR_get n hn c b hfit i hi]
  · rw [createRowTB_get n _ b tb (by omega) i hi,
      createRowFB_get n hn _ b fb (by omega) i hi, createRowLR_get n hn c b hfit i hi]

end cube

namespace cube

theorem rowIterator_add (n y z i : Nat) : rowIterator n y z + i = index n i y z := by
  simp only [rowIterator, index]
  omega

theorem rowIterator_fit (n y z : Nat) (hy : y < n) (hz : z < n) :
    rowIterator n y z + n ≤ n * n * n := by
  have h1 : z * n + y + 1 ≤ n * n := by
    have h3 : (z + 1) * n ≤ n * n := Nat.mul_le_mul_right n hz
    have h4 : z * n + n = (z + 1) * n := by ring
    omega
  calc rowIterator n y z + n = (z * n + y + 1) * n := by simp only [rowIterator, index]; ring
  _ ≤ (n * n) * n := Nat.mul_le_mul_right n h1
  _ = n * n * n := rfl

/-- Which rows of a layer receive a front-or-back color, and which color. -/
def layerHasFB (cubeSize y : Nat) : Bool :=
  decide (y = 0) || decide (y = cubeSize - 1)

def layerFB (cubeSize y : Nat) : Face :=
  if y = 0 then Face.Back else Face.Front

theorem createLayer_length (n : Nat) (c : Cube) (z : Nat) (hTBb : Bool) (tb : Face) :
    (createLayer n c z hTBb tb).length = c.length := by
  simp only [createLayer]
  rw [createRow_length,
    foldRange_length _ _ _ (fun c' t _ => createRow_length n c' _ hTBb tb false Face.Back),
    createRow_length]

theorem createLayer_frame (n : Nat) (hn : 2 ≤ n) (c : Cube) (z : Nat) (hTBb : Bool)
    (tb : Face) (j : Nat) (h : ∀ x' y', x' < n → y' < n → j ≠ index n x' y' z) :
    getPiece (createLayer n c z hTBb tb) j = getPiece c j := by
  simp only [createLayer]
  rw [createRow_frame n hn _ _ hTBb tb true Face.Front j
    (fun i hi he => by rw [rowIterator_add] at he; exact h i (n - 1) hi (by omega) he)]
  rw [foldRange_frame (n - 2) _ (fun t j' => ∃ i, i < n ∧ j' = index n i (1 + t) z) _ j
    (fun c' t ht j' hP => createRow_frame n hn c' _ hTBb tb false Face.Back j'
      (fun i hi he => hP ⟨i, hi, by rw [rowIterator_add] at he; exact he⟩))
    (fun t ht => by rintro ⟨i, hi, he⟩; exact h i (1 + t) hi (by omega) he)]
  rw [createRow_frame n hn c _ hTBb tb true Face.Back j
    (fun i hi he => by rw [rowIterator_add] at he; exact h i 0 hi (by omega) he)]

theorem createLayer_get (n : Nat) (hn : 2 ≤ n) (c : Cube) (z : Nat)
    (hfit : ∀ y', y' < n → rowIterator n y' z + n ≤ c.length) (hTBb : Bool) (tb : Face)
    (x y : Nat) (hx : x < n) (hy : y < n) :
    getPiece (createLayer n c z hTBb tb) (index n x y z)
      = rowPieceAt n c (rowIterator n y z) hTBb tb (layerHasFB n y) (layerFB n y) x := by
  have hlenc1 : (createRow n c (rowIterator n 0 z) hTBb tb true Face.Back).length
      = c.length := createRow_length n c _ hTBb tb true Face.Back
  have hlenfold : (foldRange (n - 2) (fun c' t =>
      createRow n c' (rowIterator n (1 + t) z) hTBb tb false Face.Back)
      (createRow n c (rowIterator n 0 z) hTBb tb true Face.Back)).length = c.length := by
    rw [foldRange_length _ _ _ (fun c' t _ => createRow_length n c' _ hTBb tb false Face.Back),
      hlenc1]
  simp only [createLayer]
  by_cases hy0 : y = 0
  · subst hy0
    rw [createRow_frame n hn _ _ hTBb tb true Face.Front (index n x 0 z)
      (fun i hi he => by
        rw [rowIterator_add] at he
        have := index_inj n x 0 z i (n - 1) z hx (by omega) hi (by omega) he
        omega)]
    rw [foldRange_frame (n - 2) _ (fun t j' => ∃ i, i < n ∧ j' = index n i (1 + t) z) _
      (index n x 0 z)
      (fun c' t ht j' hP => createRow_frame n hn c' _ hTBb tb false Face.Back j'
        (fun i hi he => hP ⟨i, hi, by rw [rowIterator_add] at he; exact he⟩))
      (fun t ht => by
        rintro ⟨i, hi, he⟩
        have := index_inj n x 0 z i (1 + t) z hx (by omega) hi (by omega) he
        omega)]
    rw [show index n x 0 z = rowIterator n 0 z + x from (rowIterator_add n 0 z x).symm,
      createRow_get n hn c _ (hfit 0 (by omega)) hTBb tb true Face.Back x hx]
    have h1 : layerHasFB n 0 = true := by simp [layerHasFB]
    have h2 : layerFB n 0 = Face.Back := by simp [layerFB]
    rw [h1, h2]
  · by_cases hyl : y = n - 1
    · subst hyl
      rw [show index n x (n - 1) z = rowIterator n (n - 1) z + x
        from (rowIterator_add n (n - 1) z x).symm]
      rw [createRow_get n hn _ _ (by rw [hlenfold]; exact hfit (n - 1) (by omega))
        hTBb tb true Face.Front x hx]
      have hagree : getPiece (foldRange (n - 2) (fun c' t =>
          createRow n c' (rowIterator n (1 + t) z) hTBb tb false Face.Back)
          (createRow n c (rowIterator n 0 z) hTBb tb true Face.Back))
          (rowIterator n (n - 1) z + x)
          = getPiece c (rowIterator n (n - 1) z + x) := by
        rw [rowIterator_add]
        rw [foldRange_frame (n - 2) _ (fun t j' => ∃ i, i < n ∧ j' = index n i (1 + t) z) _
          (index n x (n - 1) z)
          (fun c' t ht j' hP => createRow_frame n hn c' _ hTBb tb false Face.Back j'
            (fun i hi he => hP ⟨i, hi, by rw [rowIterator_add] at he; exact he⟩))
          (fun t ht => by
            rintro ⟨i, hi, he⟩
            have := index_inj n x (n - 1) z i (1 + t) z hx (by omega) hi (by omega) he
            omega)]
        rw [createRow_frame n hn c _ hTBb tb true Face.Back (index n x (n - 1) z)
          (fun i hi he => by
            rw [rowIterator_add] at he
            have := index_inj n x (n - 1) z i 0 z hx (by omega) hi (by omega) he
            omega)]
      rw [rowPieceAt_congr n _ c _ hTBb tb true Face.Front x hagree]
      have h1 : layerHasFB n (n - 1) = true := by simp [layerHasFB]
      have h2 : layerFB n (n - 1) = Face.Front := by
        simp only [layerFB, if_neg (show n - 1 ≠ 0 from by omega)]
      rw [h1, h2]
    · rw [createRow_frame n hn _ _ hTBb tb true Face.Front (index n x y z)
        (fun i hi he => by
          rw [rowIterator_add] at he
          have := index_inj n x y z i (n - 1) z hx hy hi (by omega) he
          omega)]
      rw [foldRange_compute (n - 2)
        (fun c' t => createRow n c' (rowIterator n (1 + t) z) hTBb tb false Face.Back)
        (fun t j' => ∃ i, i < n ∧ j' = index n i (1 + t) z) _
        (fun c' t ht j' hP => createRow_frame n hn c' _ hTBb tb false Face.Back j'
          (fun i hi he => hP ⟨i, hi, by rw [rowIterator_add] at he; exact he⟩))
        (fun t1 t2 j' h1 h2 hne => by
          rintro ⟨i1, hi1, rfl⟩ ⟨i2, hi2, he⟩
          have := index_inj n i1 (1 + t1) z i2 (1 + t2) z hi1 (by omega) hi2 (by omega) he
          omega)
        (fun c' t _ => createRow_length n c' _ hTBb tb false Face.Back)
        (fun c1' c2' t ht hl1 hl2 hagree j' hP => by
          obtain ⟨i, hi, rfl⟩ := hP
          rw [show index n i (1 + t) z = rowIterator n (1 + t) z + i
            from (rowIterator_add n (1 + t) z i).symm]
          rw [createRow_get n hn c1' _ (by rw [hl1, hlenc1]; exact hfit (1 + t) (by omega))
            hTBb tb false Face.Back i hi]
          rw [createRow_get n hn c2' _ (by rw [hl2, hlenc1]; exact hfit (1 + t) (by omega))
            hTBb tb false Face.Back i hi]
          exact rowPieceAt_congr n c1' c2' _ hTBb tb false Face.Back i
            (hagree _ ⟨i, hi, (rowIterator_add n (1 + t) z i).symm ▸ rfl⟩))
        (y - 1) (by omega) (index n x y z)
        ⟨x, hx, by rw [show 1 + (y - 1) = y from by omega]⟩]
      rw [show 1 + (y - 1) = y from by omega]
      rw [show index n x y z = rowIterator n y z + x from (rowIterator_add n y z x).symm]
      rw [createRow_get n hn _ _ (by rw [hlenc1]; exact hfit y hy)
        hTBb tb false Face.Back x hx]
      have hagree0 : getPiece (createRow n c (rowIterator n 0 z) hTBb tb true Face.Back)
          (rowIterator n y z + x) = getPiece c (rowIterator n y z + x) := by
        rw [rowIterator_add]
        rw [createRow_frame n hn c _ hTBb tb true Face.Back (index n x y z)
          (fun i hi he => by
            rw [rowIterator_add] at he
            have := index_inj n x y z i 0 z hx hy hi (by omega) he
            omega)]
      rw [rowPieceAt_congr n _ c _ hTBb tb false Face.Back x hagree0]
      have h1 : layerHasFB n y = false := by
        simp [layerHasFB, hy0, hyl]
      rw [h1, rowPieceAt_fb_irrelevant n c _ hTBb tb Face.Back (layerFB n y) x]

end cube

namespace cube

theorem replicate_getPiece (m j : Nat) :
    getPiece (List.replicate m piece.default_piece) j = piece.default_piece := by
  by_cases h : j < m
  · rw [getPiece_eq_getElem _ j (by simpa using h), List.getElem_replicate]
  · have hlen : (List.replicate m piece.default_piece).length ≤ j := by
      simpa using Nat.le_of_not_lt h
    simp only [getPiece, List.getD]
    rw [List.get?_eq_none.mpr hlen]
    rfl

theorem rowPieceAt_tb_irrelevant (n : Nat) (c : Cube) (b : Nat) (tb tb' : Face)
    (hFBb : Bool) (fb : Face) (i : Nat) :
    rowPieceAt n c b false tb hFBb fb i = rowPieceAt n c b false tb' hFBb fb i := by
  simp only [rowPieceAt, Bool.false_eq_true, if_false]

/-- Which layers get a top-or-bottom color, and which color. -/
def cubeHasTB (cubeSize z : Nat) : Bool :=
  decide (z = 0) || decide (z = cubeSize - 1)

def cubeTB (cubeSize z : Nat) : Face :=
  if z = 0 then Face.Top else Face.Bottom

theorem default_cube_length (n : Nat) : (default_cube n).length = n * n * n := by
  simp only [default_cube]
  rw [createLayer_length,
    foldRange_length _ _ _ (fun c' t _ => createLayer_length n c' (1 + t) false Face.Top),
    createLayer_length, List.length_replicate]

theorem default_cube_get (n : Nat) (hn : 2 ≤ n) (x y z : Nat) (hx : x < n) (hy : y < n)
    (hz : z < n) :
    getPiece (default_cube n) (index n x y z)
      = rowPieceAt n (List.replicate (n * n * n) piece.default_piece) (rowIterator n y z)
          (cubeHasTB n z) (cubeTB n z) (layerHasFB n y) (layerFB n y) x := by
  have hlenc1 : (createLayer n (List.replicate (n * n * n) piece.default_piece) 0
      true Face.Top).length = n * n * n := by
    rw [createLayer_length, List.length_replicate]
  have hlenfold : (foldRange (n - 2) (fun c' t => createLayer n c' (1 + t) false Face.Top)
      (createLayer n (List.replicate (n * n * n) piece.default_piece) 0
        true Face.Top)).length = n * n * n := by
    rw [foldRange_length _ _ _ (fun c' t _ => createLayer_length n c' (1 + t) false Face.Top),
      hlenc1]
  have hfitgen : ∀ (c' : Cube), c'.length = n * n * n → ∀ z', z' < n →
      ∀ y', y' < n → rowIterator n y' z' + n ≤ c'.length := by
    intro c' hc' z' hz' y' hy'
    rw [hc']
    exact rowIterator_fit n y' z' hy' hz'
  simp only [default_cube]
  by_cases hz0 : z = 0
  · subst hz0
    rw [createLayer_frame n hn _ _ true Face.Bottom (index n x y 0)
      (fun x' y' hx' hy' he => by
        have := index_inj n x y 0 x' y' (n - 1) hx hy hx' hy' he
        omega)]
    rw [foldRange_frame (n - 2) _
      (fun t j' => ∃ x' y', x' < n ∧ y' < n ∧ j' = index n x' y' (1 + t)) _ (index n x y 0)
      (fun c' t ht j' hP => createLayer_frame n hn c' (1 + t) false Face.Top j'
        (fun x' y' hx' hy' he => hP ⟨x', y', hx', hy', he⟩))
      (fun t ht => by
        rintro ⟨x', y', hx', hy', he⟩
        have := index_inj n x y 0 x' y' (1 + t) hx hy hx' hy' he
        omega)]
    rw [createLayer_get n hn _ 0
      (hfitgen _ (by rw [List.length_replicate]) 0 (by omega)) true Face.Top x y hx hy]
    have h1 : cubeHasTB n 0 = true := by simp [cubeHasTB]
    have h2 : cubeTB n 0 = Face.Top := by simp [cubeTB]
    rw [h1, h2]
  · by_cases hzl : z = n - 1
    · subst hzl
      rw [createLayer_get n hn _ (n - 1)
        (hfitgen _ hlenfold (n - 1) (by omega)) true Face.Bottom x y hx hy]
      have hagree : getPiece (foldRange (n - 2)
          (fun c' t => createLayer n c' (1 + t) false Face.Top)
          (createLayer n (List.replicate (n * n * n) piece.default_piece) 0 true Face.Top))
          (rowIterator n y (n - 1) + x)
          = getPiece (List.replicate (n * n * n) piece.default_piece)
              (rowIterator n y (n - 1) + x) := by
        rw [rowIterator_add]
        rw [foldRange_frame (n - 2) _
          (fun t j' => ∃ x' y', x' < n ∧ y' < n ∧ j' = index n x' y' (1 + t)) _
          (index n x y (n - 1))
          (fun c' t ht j' hP => createLayer_frame n hn c' (1 + t) false Face.Top j'
            (fun x' y' hx' hy' he => hP ⟨x', y', hx', hy', he⟩))
          (fun t ht => by
            rintro ⟨x', y', hx', hy', he⟩
            have := index_inj n x y (n - 1) x' y' (1 + t) hx hy hx' hy' he
            omega)]
        rw [createLayer_frame n hn _ 0 true Face.Top (index n x y (n - 1))
          (fun x' y' hx' hy' he => by
            have := index_inj n x y (n - 1) x' y' 0 hx hy hx' hy' he
            omega)]
      rw [rowPieceAt_congr n _ _ _ true Face.Bottom (layerHasFB n y) (layerFB n y) x hagree]
      have h1 : cubeHasTB n (n - 1) = true := by simp [cubeHasTB]
      have h2 : cubeTB n (n - 1) = Face.Bottom := by
        simp only [cubeTB, if_neg (show n - 1 ≠ 0 from by omega)]
      rw [h1, h2]
    · rw [createLayer_frame n hn _ _ true Face.Bottom (index n x y z)
        (fun x' y' hx' hy' he => by
          have := index_inj n x y z x' y' (n - 1) hx hy hx' hy' he
          omega)]
      rw [foldRange_compute (n - 2)
        (fun c' t => createLayer n c' (1 + t) false Face.Top)
        (fun t j' => ∃ x' y', x' < n ∧ y' < n ∧ j' = index n x' y' (1 + t)) _
        (fun c' t ht j' hP => createLayer_frame n hn c' (1 + t) false Face.Top j'
          (fun x' y' hx' hy' he => hP ⟨x', y', hx', hy', he⟩))
        (fun t1 t2 j' h1 h2 hne => by
          rintro ⟨x1, y1, hx1, hy1, rfl⟩ ⟨x2, y2, hx2, hy2, he⟩
          have := index_inj n x1 y1 (1 + t1) x2 y2 (1 + t2) hx1 hy1 hx2 hy2 he
          omega)
        (fun c' t _ => createLayer_length n c' (1 + t) false Face.Top)
        (fun c1' c2' t ht hl1 hl2 hagree j' hP => by
          obtain ⟨x', y', hx', hy', rfl⟩ := hP
          rw [createLayer_get n hn c1' (1 + t) (hfitgen c1' (by rw [hl1, hlenc1]) (1 + t)
            (by omega)) false Face.Top x' y' hx' hy']
          rw [createLayer_get n hn c2' (1 + t) (hfitgen c2' (by rw [hl2, hlenc1]) (1 + t)
            (by omega)) false Face.Top x' y' hx' hy']
          exact rowPieceAt_congr n c1' c2' _ false Face.Top (layerHasFB n y') (layerFB n y') x'
            (by rw [rowIterator_add]; exact hagree _ ⟨x', y', hx', hy', rfl⟩))
        (z - 1) (by omega) (index n x y z)
        ⟨x, y, hx, hy, by rw [show 1 + (z - 1) = z from by omega]⟩]
      rw [show 1 + (z - 1) = z from by omega]
      rw [createLayer_get n hn _ z (hfitgen _ hlenc1 z hz) false Face.Top x y hx hy]
      have hagree0 : getPiece (createLayer n (List.replicate (n * n * n) piece.default_piece)
          0 true Face.Top) (rowIterator n y z + x)
          = getPiece (List.replicate (n * n * n) piece.default_piece)
              (rowIterator n y z + x) := by
        rw [rowIterator_add]
        rw [createLayer_frame n hn _ 0 true Face.Top (index n x y z)
          (fun x' y' hx' hy' he => by
            have := index_inj n x y z x' y' 0 hx hy hx' hy' he
            omega)]
      rw [rowPieceAt_congr n _ _ _ false Face.Top (layerHasFB n y) (layerFB n y) x hagree0]
      have h1 : cubeHasTB n z = false := by simp [cubeHasTB, hz0, hzl]
      rw [h1, rowPieceAt_tb_irrelevant n _ _ Face.Top (cubeTB n z) (layerHasFB n y)
        (layerFB n y) x]

end cube

namespace cube

/-- Explicit value of the piece at cell (x, y, z) of the solved cube. -/
def defaultPieceAt (cubeSize x y z : Nat) : Piece :=
  let p0 := if x = 0 then piece.default_face Face.Left
    else if x = cubeSize - 1 then piece.default_face Face.Right
    else piece.default_piece
  let p1 := if y = 0 then piece.add_default_face p0 Face.Back
    else if y = cubeSize - 1 then piece.add_default_face p0 Face.Front
    else p0
  if z = 0 then piece.add_default_face p1 Face.Top
  else if z = cubeSize - 1 then piece.add_default_face p1 Face.Bottom
  else p1

theorem rowPieceAt_default (n : Nat) (x y z : Nat) :
    rowPieceAt n (List.replicate (n * n * n) piece.default_piece) (rowIterator n y z)
      (cubeHasTB n z) (cubeTB n z) (layerHasFB n y) (layerFB n y) x
    = defaultPieceAt n x y z := by
  simp only [rowPieceAt, defaultPieceAt, replicate_getPiece, cubeHasTB, cubeTB,
    layerHasFB, layerFB]
  by_cases hz0 : z = 0 <;> by_cases hzl : z = n - 1 <;>
    by_cases hy0 : y = 0 <;> by_cases hyl : y = n - 1 <;>
    simp [hz0, hzl, hy0, hyl] <;>
    split_ifs <;>
    rfl

theorem defaultPieceAt_get (n x y z : Nat) :
    Piece.get (defaultPieceAt n x y z) Face.Top = (if z = 0 then Color.White else Color.None)
    ∧ Piece.get (defaultPieceAt n x y z) Face.Bottom
      = (if z = 0 then Color.None else if z = n - 1 then Color.Yellow else Color.None)
    ∧ Piece.get (defaultPieceAt n x y z) Face.Back
      = (if y = 0 then Color.Blue else Color.None)
    ∧ Piece.get (defaultPieceAt n x y z) Face.Front
      = (if y = 0 then Color.None else if y = n - 1 then Color.Green else Color.None)
    ∧ Piece.get (defaultPieceAt n x y z) Face.Left
      = (if x = 0 then Color.Orange else Color.None)
    ∧ Piece.get (defaultPieceAt n x y z) Face.Right
      = (if x = 0 then Color.None else if x = n - 1 then Color.Red else Color.None) := by
  refine ⟨?_, ?_, ?_, ?_, ?_, ?_⟩ <;>
    simp only [defaultPieceAt] <;>
    split_ifs <;>
    rfl

end cube

namespace cube

theorem validateSide_eq_true (n : Nat) (c : Cube) (pl : Nat → Nat → Coord) (face : Face)
    (h : ∀ y, y < n → ∀ x, x < n →
      Piece.get (getPiece c (indexC n (pl x y))) face = default_color face) :
    validateSide n c pl face = true := by
  simp only [validateSide, List.all_eq_true, List.mem_range, decide_eq_true_eq]
  intro y hy x hx
  exact h y hy x hx

theorem validate_default_cube (n : Nat) (hn : 2 ≤ n) :
    validate n (default_cube n) = true := by
  have hget : ∀ x y z, x < n → y < n → z < n →
      getPiece (default_cube n) (index n x y z) = defaultPieceAt n x y z := by
    intro x y z hx hy hz
    rw [default_cube_get n hn x y z hx hy hz, rowPieceAt_default]
  rw [validate]
  simp only [Bool.and_eq_true]
  refine ⟨⟨⟨⟨⟨?_, ?_⟩, ?_⟩, ?_⟩, ?_⟩, ?_⟩
  · -- Top face: layer (Y, n-1), plane z = 0
    apply validateSide_eq_true
    intro y hy x hx
    simp only [layer, layer_top]
    by_cases hh : n - 1 ≤ n / 2
    · rw [planeToCube_Y_first n (n - 1) x y (by omega) hh hx hy,
        show n - 1 - (n - 1) = 0 from by omega]
      show Piece.get (getPiece (default_cube n) (index n x (n - 1 - y) 0)) Face.Top
        = default_color Face.Top
      rw [hget x (n - 1 - y) 0 hx (by omega) (by omega),
        (defaultPieceAt_get n x (n - 1 - y) 0).1, if_pos rfl]
      rfl
    · rw [planeToCube_Y_second n (n - 1) x y (by omega) hh hx hy,
        show n - 1 - (n - 1) = 0 from by omega]
      show Piece.get (getPiece (default_cube n) (index n x y 0)) Face.Top
        = default_color Face.Top
      rw [hget x y 0 hx hy (by omega), (defaultPieceAt_get n x y 0).1, if_pos rfl]
      rfl
  · -- Left face: layer (X, 0), plane x = 0
    apply validateSide_eq_true
    intro y hy x hx
    simp only [layer, layer_left]
    rw [planeToCube_X_first n 0 x y (by omega) (by omega) hx hy]
    show Piece.get (getPiece (default_cube n) (index n 0 x y)) Face.Left
      = default_color Face.Left
    rw [hget 0 x y (by omega) hx hy, (defaultPieceAt_get n 0 x y).2.2.2.2.1, if_pos rfl]
    rfl
  · -- Front face: layer (Z, 0), plane y = n-1
    apply validateSide_eq_true
    intro y hy x hx
    simp only [layer, layer_front]
    rw [planeToCube_Z_first n 0 x y (by omega) (by omega) hx hy,
      show n - 1 - 0 = n - 1 from by omega]
    show Piece.get (getPiece (default_cube n) (index n x (n - 1) y)) Face.Front
      = default_color Face.Front
    rw [hget x (n - 1) y hx (by omega) hy, (defaultPieceAt_get n x (n - 1) y).2.2.2.1,
      if_neg (show n - 1 ≠ 0 from by omega), if_pos rfl]
    rfl
  · -- Right face: layer (X, n-1), plane x = n-1
    apply validateSide_eq_true
    intro y hy x hx
    simp only [layer, layer_right]
    by_cases hh : n - 1 ≤ n / 2
    · rw [planeToCube_X_first n (n - 1) x y (by omega) hh hx hy]
      show Piece.get (getPiece (default_cube n) (index n (n - 1) x y)) Face.Right
        = default_color Face.Right
      rw [hget (n - 1) x y (by omega) hx hy, (defaultPieceAt_get n (n - 1) x y).2.2.2.2.2,
        if_neg (show n - 1 ≠ 0 from by omega), if_pos rfl]
      rfl
    · rw [planeToCube_X_second n (n - 1) x y (by omega) hh hx hy]
      show Piece.get (getPiece (default_cube n) (index n (n - 1) (n - 1 - x) y)) Face.Right
        = default_color Face.Right
      rw [hget (n - 1) (n - 1 - x) y (by omega) (by omega) hy,
        (defaultPieceAt_get n (n - 1) (n - 1 - x) y).2.2.2.2.2,
        if_neg (show n - 1 ≠ 0 from by omega), if_pos rfl]
      rfl
  · -- Back face: layer (Z, n-1), plane y = 0
    apply validateSide_eq_true
    intro y hy x hx
    simp only [layer, layer_back]
    by_cases hh : n - 1 ≤ n / 2
    · rw [planeToCube_Z_first n (n - 1) x y (by omega) hh hx hy,
        show n - 1 - (n - 1) = 0 from by omega]
      show Piece.get (getPiece (default_cube n) (index n x 0 y)) Face.Back
        = default_color Face.Back
      rw [hget x 0 y hx (by omega) hy, (defaultPieceAt_get n x 0 y).2.2.1, if_pos rfl]
      rfl
    · rw [planeToCube_Z_second n (n - 1) x y (by omega) hh hx hy,
        show n - 1 - (n - 1) = 0 from by omega]
      show Piece.get (getPiece (default_cube n) (index n (n - 1 - x) 0 y)) Face.Back
        = default_color Face.Back
      rw [hget (n - 1 - x) 0 y (by omega) (by omega) hy,
        (defaultPieceAt_get n (n - 1 - x) 0 y).2.2.1, if_pos rfl]
      rfl
  · -- Bottom face: layer (Y, 0), plane z = n-1
    apply validateSide_eq_true
    intro y hy x hx
    simp only [layer, layer_bottom]
    rw [planeToCube_Y_first n 0 x y (by omega) (by omega) hx hy,
      show n - 1 - 0 = n - 1 from by omega]
    show Piece.get (getPiece (default_cube n) (index n x (n - 1 - y) (n - 1))) Face.Bottom
      = default_color Face.Bottom
    rw [hget x (n - 1 - y) (n - 1) hx (by omega) (by omega),
      (defaultPieceAt_get n x (n - 1 - y) (n - 1)).2.1,
      if_neg (show n - 1 ≠ 0 from by omega), if_pos rfl]
    rfl

end cube

/-- The apostrophe character used as the counter-clockwise move suffix. -/
def apostrophe : Char := Char.ofNat 39

/-- `performMove` inside `perform`: dispatch one face letter to a layer
rotation; unrecognized letters leave the cube unchanged. -/
def performMove (cubeSize : Nat) (move : Char) (clockwise : Bool) (c : Cube) : Cube :=
  if move = 'F' then cube.rotate cubeSize c (layer_front cubeSize) clockwise
  else if move = 'U' then cube.rotate cubeSize c (layer_top cubeSize) clockwise
  else if move = 'R' then cube.rotate cubeSize c (layer_right cubeSize) clockwise
  else if move = 'B' then cube.rotate cubeSize c (layer_back cubeSize) clockwise
  else if move = 'L' then cube.rotate cubeSize c (layer_left cubeSize) clockwise
  else if move = 'D' then cube.rotate cubeSize c (layer_bottom cubeSize) clockwise
  else c

/-- `computeMove` inside `perform`: a one-character token is a clockwise
turn, a `'` suffix a counter-clockwise turn, a `2` suffix two clockwise
turns, and anything else leaves the cube unchanged.  (The empty token
never arises: stream tokenization yields nonempty tokens.) -/
def computeMove (cubeSize : Nat) (move : List Char) (c : Cube) : Cube :=
  match move with
  | [m] => performMove cubeSize m true c
  | m :: m1 :: _ =>
      if m1 = apostrophe then performMove cubeSize m false c
      else if m1 = '2' then performMove cubeSize m true (performMove cubeSize m true c)
      else c
  | [] => c

/-- `perform`, applied to the whitespace-split token list of the move
string: start from the solved cube and apply each token. -/
def perform (cubeSize : Nat) (tokens : List (List Char)) : Cube :=
  tokens.foldl (fun c move => computeMove cubeSize move c) (cube.default_cube cubeSize)

/-- `randomLayer` of `random_moves`: the face letter emitted for each of
the six possible draws of the layer distribution. -/
def randomLayer (layer : Nat) : List Char :=
  match layer with
  | 0 => ['L']
  | 1 => ['R']
  | 2 => ['D']
  | 3 => ['T']
  | 4 => ['F']
  | 5 => ['B']
  | _ => []

/-- `randomTurn` of `random_moves`: the suffix emitted for each of the four
possible draws of the turn distribution. -/
def randomTurn (turn : Nat) : List Char :=
  match turn with
  | 0 => []
  | 1 => [apostrophe]
  | 2 => ['2']
  | _ => []

/-- `random_moves`, with the stream of random draws made an explicit
argument: one (layer, turn) pair per step, each layer draw uniform on
[0,5] and each turn draw uniform on [0,3] in the source. -/
def random_moves (_cubeSize : Nat) (draws : List (Nat × Nat)) : List Char :=
  (draws.map (fun d => randomLayer d.1 ++ randomTurn d.2 ++ [' '])).flatten

/-- Whitespace tokenization as done by `istream_iterator<string>`:
space-separated, empty tokens skipped. -/
def splitTokens (s : List Char) : List (List Char) :=
  (s.splitOn ' ').filter (fun t => !t.isEmpty)

/-- A face letter the move parser recognizes. -/
def isFaceLetter (c : Char) : Bool :=
  c == 'F' || c == 'U' || c == 'R' || c == 'B' || c == 'L' || c == 'D'

/-- A token of the move grammar `<FaceLetter>[' | 2]`. -/
def tokenWellFormed (t : List Char) : Bool :=
  match t with
  | [m] => isFaceLetter m
  | [m, s] => isFaceLetter m && (s == apostrophe || s == '2')
  | _ => false

/-- A finite sequence of layer rotations applied in order. -/
def applyMoves (cubeSize : Nat) (moves : List (Layer × Bool)) (c : Cube) : Cube :=
  moves.foldl (fun c' m => cube.rotate cubeSize c' m.1 m.2) c

theorem applyMoves_definedCount (n : Nat) : ∀ (ms : List (Layer × Bool)) (c : Cube),
    (∀ m ∈ ms, m.1.index < n) → c.length = n * n * n →
    cubeDefinedCount n (applyMoves n ms c) = cubeDefinedCount n c
  | [], _, _, _ => rfl
  | (mv :: ms), c, hms, hc => by
      have h1 : applyMoves n (mv :: ms) c = applyMoves n ms (cube.rotate n c mv.1 mv.2) := rfl
      rw [h1,
        applyMoves_definedCount n ms _ (fun m' hm' => hms m' (List.mem_cons_of_mem _ hm'))
          (by rw [cube.rotate_length, hc]),
        cube.cubeDefinedCount_rotate n mv.1 mv.2 c (hms mv (List.mem_cons_self _ _)) hc]

/-- C1: for every puzzle size, every layer with depth in range, and every
cube of the right size, four clockwise turns of the same layer restore the
cube exactly. -/
theorem C1_rotate_four_times_identity (n : Nat) (l : Layer) (c : Cube)
    (hl : l.index < n) (hc : c.length = n * n * n) :
    cube.rotate n (cube.rotate n (cube.rotate n (cube.rotate n c l true) l true) l true)
      l true = c := by
  have len1 : (cube.rotate n c l true).length = n * n * n := by
    rw [cube.rotate_length, hc]
  have len2 : (cube.rotate n (cube.rotate n c l true) l true).length = n * n * n := by
    rw [cube.rotate_length, len1]
  have len3 : (cube.rotate n (cube.rotate n (cube.rotate n c l true) l true) l true).length
      = n * n * n := by
    rw [cube.rotate_length, len2]
  refine cube_ext _ _ ?_ ?_
  · rw [cube.rotate_length, len3, hc]
  · intro j
    by_cases hj : ∃ x y, x < n ∧ y < n ∧ j = cube.mapIdx n l x y
    · obtain ⟨x, y, hx, hy, rfl⟩ := hj
      rw [cube.rotate_get_true n l hl _ len3 x y hx hy,
        cube.rotate_get_true n l hl _ len2 y (n - 1 - x) hy (by omega),
        cube.rotate_get_true n l hl _ len1 (n - 1 - x) (n - 1 - y) (by omega) (by omega),
        cube.rotate_get_true n l hl c hc (n - 1 - y) (n - 1 - (n - 1 - x)) (by omega)
          (by omega)]
      rw [show n - 1 - (n - 1 - x) = x from by omega,
        show n - 1 - (n - 1 - y) = y from by omega]
      cases hcp : cube.clockwisePiece n l <;> exact piece.rotate_four _ l.axis _
    · push_neg at hj
      rw [cube.rotate_frame n _ l true j hj, cube.rotate_frame n _ l true j hj,
        cube.rotate_frame n _ l true j hj, cube.rotate_frame n _ l true j hj]

theorem C1_witness :
    cube.rotate 2 (cube.rotate 2 (cube.rotate 2 (cube.rotate 2
      (List.replicate 8 piece.default_piece) ⟨Axis.X, 0⟩ true) ⟨Axis.X, 0⟩ true)
      ⟨Axis.X, 0⟩ true) ⟨Axis.X, 0⟩ true = List.replicate 8 piece.default_piece :=
  C1_rotate_four_times_identity 2 ⟨Axis.X, 0⟩ (List.replicate 8 piece.default_piece)
    (by decide) (by decide)

/-- C5: a clockwise turn followed by the counter-clockwise turn of the same
layer is the identity on the whole cube. -/
theorem C5_rotate_then_inverse_identity (n : Nat) (l : Layer) (c : Cube)
    (hl : l.index < n) (hc : c.length = n * n * n) :
    cube.rotate n (cube.rotate n c l true) l false = c := by
  have len1 : (cube.rotate n c l true).length = n * n * n := by
    rw [cube.rotate_length, hc]
  refine cube_ext _ _ ?_ ?_
  · rw [cube.rotate_length, len1, hc]
  · intro j
    by_cases hj : ∃ x y, x < n ∧ y < n ∧ j = cube.mapIdx n l x y
    · obtain ⟨x, y, hx, hy, rfl⟩ := hj
      rw [cube.rotate_get_false n l hl _ len1 x y hx hy,
        cube.rotate_get_true n l hl c hc (n - 1 - y) x (by omega) hx]
      rw [show n - 1 - (n - 1 - y) = y from by omega]
      cases hcp : cube.clockwisePiece n l
      · exact piece.rotate_rotate_not _ l.axis false
      · exact piece.rotate_rotate_not _ l.axis true
    · push_neg at hj
      rw [cube.rotate_frame n _ l false j hj, cube.rotate_frame n _ l true j hj]

theorem C5_witness :
    cube.rotate 2 (cube.rotate 2 (List.replicate 8 piece.default_piece) ⟨Axis.Y, 1⟩ true)
      ⟨Axis.Y, 1⟩ false = List.replicate 8 piece.default_piece :=
  C5_rotate_then_inverse_identity 2 ⟨Axis.Y, 1⟩ (List.replicate 8 piece.default_piece)
    (by decide) (by decide)

/-- C2 (counterexample): for N = 2 and the layer (axis Y, depth 0), the
mapped coordinate of (col,row) = (0,0) does not have its y-coordinate equal
to the layer depth, contradicting the claim that the coordinate along the
layer's axis equals its depth. -/
theorem C2_counterexample :
    ¬ ((cube.planeToCube 2 ⟨Axis.Y, 0⟩ 0 0).y = 0) := by decide

/-- C2 (amended): for every N ≥ 2 and every layer with depth in range, the
mapping produces exactly N² distinct coordinates, all inside [0,N)³, and
all lying in one plane determined by the layer — x = depth for an X layer,
z = N-1-depth for a Y layer, and y = N-1-depth for a Z layer. -/
theorem C2_amended_coordinate_mapper (n : Nat) (l : Layer) (hn : 2 ≤ n)
    (hl : l.index < n) :
    ((Finset.range n ×ˢ Finset.range n).image
      (fun p : Nat × Nat => cube.planeToCube n l p.1 p.2)).card = n * n
    ∧ ∀ col row, col < n → row < n →
        (cube.planeToCube n l col row).x < n ∧ (cube.planeToCube n l col row).y < n
        ∧ (cube.planeToCube n l col row).z < n
        ∧ (match l.axis with
           | Axis.X => (cube.planeToCube n l col row).x = l.index
           | Axis.Y => (cube.planeToCube n l col row).z = n - 1 - l.index
           | Axis.Z => (cube.planeToCube n l col row).y = n - 1 - l.index) := by
  constructor
  · have hinj : Set.InjOn (fun p : Nat × Nat => cube.planeToCube n l p.1 p.2)
        ↑(Finset.range n ×ˢ Finset.range n) := by
      rintro ⟨x1, y1⟩ h1 ⟨x2, y2⟩ h2 he
      simp only [Finset.coe_product, Set.mem_prod, Finset.mem_coe, Finset.mem_range] at h1 h2
      have := cube.planeToCube_inj n l hl h1.1 h1.2 h2.1 h2.2 he
      simp only [Prod.mk.injEq]
      exact this
    rw [Finset.card_image_of_injOn hinj, Finset.card_product]
    simp [Finset.card_range]
  · intro col row hcol hrow
    obtain ⟨h1, h2, h3⟩ := cube.planeToCube_bounds n l hl col row hcol hrow
    exact ⟨h1, h2, h3, cube.planeToCube_fixed_coord n l hl col row hcol hrow⟩

theorem C2_witness :
    ((Finset.range 2 ×ˢ Finset.range 2).image
      (fun p : Nat × Nat => cube.planeToCube 2 ⟨Axis.X, 1⟩ p.1 p.2)).card = 2 * 2 :=
  (C2_amended_coordinate_mapper 2 ⟨Axis.X, 1⟩ (by decide) (by decide)).1

/-- C3 (counterexample): a piece with a color only on Top, rotated about X
with clockwise = true, does not send the Top color to Back — the claimed
clockwise cycle direction is the one the code performs for
clockwise = false. -/
theorem C3_counterexample :
    ¬ (Piece.get (piece.rotate
        ⟨Color.White, Color.None, Color.None, Color.None, Color.None, Color.None⟩
        Axis.X true) Face.Back
      = Piece.get
        (⟨Color.White, Color.None, Color.None, Color.None, Color.None, Color.None⟩ : Piece)
        Face.Top) := by decide

/-- C3 (amended): `piece::rotate` permutes exactly the four slots orthogonal
to the axis in a 4-cycle and leaves the two parallel slots unchanged, with
undefined slots cycling as "no color"; the listed cycles
(X: Top→Back→Bottom→Front, Y: Front→Left→Back→Right, Z: Top→Left→Bottom→Right)
are performed by clockwise = false, and clockwise = true performs the
reversed cycles. -/
theorem C3_amended_rotate_faces_cycles (p : Piece) :
    (Piece.get (piece.rotate p Axis.X false) Face.Left = Piece.get p Face.Left
      ∧ Piece.get (piece.rotate p Axis.X false) Face.Right = Piece.get p Face.Right
      ∧ Piece.get (piece.rotate p Axis.X true) Face.Left = Piece.get p Face.Left
      ∧ Piece.get (piece.rotate p Axis.X true) Face.Right = Piece.get p Face.Right
      ∧ Piece.get (piece.rotate p Axis.X false) Face.Back = Piece.get p Face.Top
      ∧ Piece.get (piece.rotate p Axis.X false) Face.Bottom = Piece.get p Face.Back
      ∧ Piece.get (piece.rotate p Axis.X false) Face.Front = Piece.get p Face.Bottom
      ∧ Piece.get (piece.rotate p Axis.X false) Face.Top = Piece.get p Face.Front
      ∧ Piece.get (piece.rotate p Axis.X true) Face.Front = Piece.get p Face.Top
      ∧ Piece.get (piece.rotate p Axis.X true) Face.Bottom = Piece.get p Face.Front
      ∧ Piece.get (piece.rotate p Axis.X true) Face.Back = Piece.get p Face.Bottom
      ∧ Piece.get (piece.rotate p Axis.X true) Face.Top = Piece.get p Face.Back)
    ∧ (Piece.get (piece.rotate p Axis.Y false) Face.Top = Piece.get p Face.Top
      ∧ Piece.get (piece.rotate p Axis.Y false) Face.Bottom = Piece.get p Face.Bottom
      ∧ Piece.get (piece.rotate p Axis.Y true) Face.Top = Piece.get p Face.Top
      ∧ Piece.get (piece.rotate p Axis.Y true) Face.Bottom = Piece.get p Face.Bottom
      ∧ Piece.get (piece.rotate p Axis.Y false) Face.Left = Piece.get p Face.Front
      ∧ Piece.get (piece.rotate p Axis.Y false) Face.Back = Piece.get p Face.Left
      ∧ Piece.get (piece.rotate p Axis.Y false) Face.Right = Piece.get p Face.Back
      ∧ Piece.get (piece.rotate p Axis.Y false) Face.Front = Piece.get p Face.Right
      ∧ Piece.get (piece.rotate p Axis.Y true) Face.Right = Piece.get p Face.Front
      ∧ Piece.get (piece.rotate p Axis.Y true) Face.Back = Piece.get p Face.Right
      ∧ Piece.get (piece.rotate p Axis.Y true) Face.Left = Piece.get p Face.Back
      ∧ Piece.get (piece.rotate p Axis.Y true) Face.Front = Piece.get p Face.Left)
    ∧ (Piece.get (piece.rotate p Axis.Z false) Face.Front = Piece.get p Face.Front
      ∧ Piece.get (piece.rotate p Axis.Z false) Face.Back = Piece.get p Face.Back
      ∧ Piece.get (piece.rotate p Axis.Z true) Face.Front = Piece.get p Face.Front
      ∧ Piece.get (piece.rotate p Axis.Z true) Face.Back = Piece.get p Face.Back
      ∧ Piece.get (piece.rotate p Axis.Z false) Face.Left = Piece.get p Face.Top
      ∧ Piece.get (piece.rotate p Axis.Z false) Face.Bottom = Piece.get p Face.Left
      ∧ Piece.get (piece.rotate p Axis.Z false) Face.Right = Piece.get p Face.Bottom
      ∧ Piece.get (piece.rotate p Axis.Z false) Face.Top = Piece.get p Face.Right
      ∧ Piece.get (piece.rotate p Axis.Z true) Face.Right = Piece.get p Face.Top
      ∧ Piece.get (piece.rotate p Axis.Z true) Face.Bottom = Piece.get p Face.Right
      ∧ Piece.get (piece.rotate p Axis.Z true) Face.Left = Piece.get p Face.Bottom
      ∧ Piece.get (piece.rotate p Axis.Z true) Face.Top = Piece.get p Face.Left) :=
  ⟨⟨rfl, rfl, rfl, rfl, rfl, rfl, rfl, rfl, rfl, rfl, rfl, rfl⟩,
   ⟨rfl, rfl, rfl, rfl, rfl, rfl, rfl, rfl, rfl, rfl, rfl, rfl⟩,
   ⟨rfl, rfl, rfl, rfl, rfl, rfl, rfl, rfl, rfl, rfl, rfl, rfl⟩⟩

/-- C4: for every puzzle size N ≥ 2, the validator accepts the freshly
initialized solved cube. -/
theorem C4_validate_default_cube (n : Nat) (hn : 2 ≤ n) :
    cube.validate n (cube.default_cube n) = true :=
  cube.validate_default_cube n hn

theorem C4_witness : cube.validate 2 (cube.default_cube 2) = true :=
  C4_validate_default_cube 2 (by decide)

/-- C6: a single rotation, and hence any finite sequence of rotations,
conserves the total number of defined color slots over the whole cube. -/
theorem C6_defined_count_conserved (n : Nat) (l : Layer) (cw : Bool)
    (ms : List (Layer × Bool)) (c : Cube) (hl : l.index < n)
    (hms : ∀ m ∈ ms, m.1.index < n) (hc : c.length = n * n * n) :
    cubeDefinedCount n (cube.rotate n c l cw) = cubeDefinedCount n c
    ∧ cubeDefinedCount n (applyMoves n ms c) = cubeDefinedCount n c :=
  ⟨cube.cubeDefinedCount_rotate n l cw c hl hc,
   applyMoves_definedCount n ms c hms hc⟩

theorem C6_witness :
    cubeDefinedCount 2 (cube.rotate 2 (cube.default_cube 2) ⟨Axis.Z, 0⟩ true)
      = cubeDefinedCount 2 (cube.default_cube 2)
    ∧ cubeDefinedCount 2 (applyMoves 2 [(⟨Axis.Z, 0⟩, true), (⟨Axis.X, 1⟩, false)]
        (cube.default_cube 2)) = cubeDefinedCount 2 (cube.default_cube 2) :=
  C6_defined_count_conserved 2 ⟨Axis.Z, 0⟩ true [(⟨Axis.Z, 0⟩, true), (⟨Axis.X, 1⟩, false)]
    (cube.default_cube 2) (by decide) (by decide) (by decide)

/-- C7 (code evaluated at the failing input): a layer draw of 3 makes the
scramble generator emit the token "T", which does not conform to the move
grammar, and which the move dispatcher silently ignores. -/
theorem C7_generator_emits_unparsed_token :
    splitTokens (random_moves 3 [(3, 0)]) = [['T']]
    ∧ tokenWellFormed ['T'] = false
    ∧ performMove 3 'T' true (cube.default_cube 3) = cube.default_cube 3 := by decide

/-- C8: a token whose first character is not one of the six face letters
leaves the cube unchanged, and a token with a second character that is
neither the apostrophe nor '2' leaves the cube unchanged; no error arises. -/
theorem C8_malformed_moves_noop (n : Nat) (c : Cube) (m : Char) (rest : List Char) :
    (m ∉ ['F', 'U', 'R', 'B', 'L', 'D'] → computeMove n (m :: rest) c = c)
    ∧ (∀ m1 rest2, m1 ≠ apostrophe → m1 ≠ '2' → computeMove n (m :: m1 :: rest2) c = c) := by
  have hperf : ∀ (cw : Bool) (c' : Cube), m ∉ ['F', 'U', 'R', 'B', 'L', 'D'] →
      performMove n m cw c' = c' := by
    intro cw c' hm
    have hF : ¬(m = 'F') := fun he => hm (by rw [he]; simp)
    have hU : ¬(m = 'U') := fun he => hm (by rw [he]; simp)
    have hR : ¬(m = 'R') := fun he => hm (by rw [he]; simp)
    have hB : ¬(m = 'B') := fun he => hm (by rw [he]; simp)
    have hL : ¬(m = 'L') := fun he => hm (by rw [he]; simp)
    have hD : ¬(m = 'D') := fun he => hm (by rw [he]; simp)
    rw [performMove, if_neg hF, if_neg hU, if_neg hR, if_neg hB, if_neg hL, if_neg hD]
  constructor
  · intro hm
    cases rest with
    | nil => exact hperf true c hm
    | cons m1 rest2 =>
      simp only [computeMove]
      by_cases h1 : m1 = apostrophe
      · rw [if_pos h1]
        exact hperf false c hm
      · rw [if_neg h1]
        by_cases h2 : m1 = '2'
        · rw [if_pos h2, hperf true c hm, hperf true c hm]
        · rw [if_neg h2]
  · intro m1 rest2 h1 h2
    simp only [computeMove]
    rw [if_neg h1, if_neg h2]

theorem C8_witness :
    computeMove 3 ['X'] ([] : Cube) = [] ∧ computeMove 3 ['X', 'Z'] ([] : Cube) = [] :=
  ⟨(C8_malformed_moves_noop 3 [] 'X' []).1 (by decide),
   (C8_malformed_moves_noop 3 [] 'X' ['Z']).2 'Z' [] (by decide) (by decide)⟩

set_option maxRecDepth 4000 in
/-- C9: on the solved 3-cube, the token "U2" acts exactly as "U" followed by
"U", and it leaves the Top color slot of every cell of the Top layer
unchanged. -/
theorem C9_U2_eq_UU_top_fixed :
    computeMove 3 ['U', '2'] (cube.default_cube 3)
      = computeMove 3 ['U'] (computeMove 3 ['U'] (cube.default_cube 3))
    ∧ ∀ x : Fin 3, ∀ y : Fin 3,
        Piece.get (getPiece (computeMove 3 ['U', '2'] (cube.default_cube 3))
          (cube.mapIdx 3 (layer_top 3) x.1 y.1)) Face.Top
        = Piece.get (getPiece (cube.default_cube 3)
          (cube.mapIdx 3 (layer_top 3) x.1 y.1)) Face.Top := by
  constructor
  · decide
  · decide

/-- C10: a rotation changes only the N² cells addressed by the layer's
mapping — every other flat index holds the identical piece — and the cube
still has exactly N³ pieces. -/
theorem C10_rotate_frame_effect (n : Nat) (l : Layer) (cw : Bool) (c : Cube)
    (hl : l.index < n) (hc : c.length = n * n * n) :
    (cube.rotate n c l cw).length = n * n * n
    ∧ ∀ j, (∀ x y, x < n → y < n → j ≠ cube.mapIdx n l x y) →
        getPiece (cube.rotate n c l cw) j = getPiece c j :=
  ⟨by rw [cube.rotate_length, hc], fun j hj => cube.rotate_frame n c l cw j hj⟩

theorem C10_witness :
    (cube.rotate 2 (cube.default_cube 2) ⟨Axis.X, 0⟩ true).length = 2 * 2 * 2
    ∧ getPiece (cube.rotate 2 (cube.default_cube 2) ⟨Axis.X, 0⟩ true) 1
      = getPiece (cube.default_cube 2) 1 :=
  ⟨(C10_rotate_frame_effect 2 ⟨Axis.X, 0⟩ true (cube.default_cube 2) (by decide)
      (by decide)).1,
   (C10_rotate_frame_effect 2 ⟨Axis.X, 0⟩ true (cube.default_cube 2) (by decide)
      (by decide)).2 1 (by intro x y hx hy; interval_cases x <;> interval_cases y <;> decide)⟩
